import Mathlib

/-!
# pkgin package lists (`pkglist.c`)

A shallow embedding of `src/pkglist.c`: the catalog entry, the two global
catalogs, the installed-status resolver `pkg_is_installed`, the listing
engine `list_pkgs`, the search engine `search_pkg` with its comparator
`pkg_sort_cmp`, the category utilities and the global catalogs.

Conventions of the embedding.

* A C string (`char *`) that may be `NULL` is an `Option String`; a C `char`
  is a `Char`.  Strings are assumed to hold no NUL character, except the
  buffer written by `snprintf`, which is cut at the first NUL when it is read
  back as a string.
* An `SLIST` of entries is a `List Pkglist`, head first, so `SLIST_FOREACH` is
  a recursion over the list.
* Undefined behaviour (handing a `NULL` pointer to `strcmp`, `regexec`,
  `xstrdup`, or to a `%s` conversion of `snprintf`) and `errx` end a run with
  a `Stop`; a normal return carries the returned value and the trace of
  externally visible events.
* Everything declared in a header that is not part of `pkglist.c` (constants,
  message texts, the version comparators, the query executor) and the library
  routines `regcomp`, `regexec` and `qsort` are fields of an environment `Env`.
-/

namespace Pkgin

/-! ## Strings -/

/-- Sign of `strcmp` on two character sequences: the first position where the
two differ decides, characters compared as unsigned values, and a proper
prefix is smaller. -/
def strcmpAux : List Char → List Char → Int
  | [], [] => 0
  | [], _ :: _ => -1
  | _ :: _, [] => 1
  | a :: as, b :: bs =>
    if a.toNat < b.toNat then -1
    else if b.toNat < a.toNat then 1
    else strcmpAux as bs

/-- The libc `strcmp`, up to the magnitude of a non-zero result (the source
only tests the result against zero): negative, zero or positive as `s1` is
less than, equal to or greater than `s2`. -/
def strcmp (s1 s2 : String) : Int := strcmpAux s1.data s2.data

/-! ## Data model (`pkgin.h`) -/

/-- Catalog entry, `Pkglist` of `pkgin.h`, with the fields `malloc_pkglist`
initialises.  String members are nullable pointers. -/
structure Pkglist where
  full : Option String
  name : Option String
  version : Option String
  build_date : Option String
  depend : Option String
  size_pkg : Int
  old_size_pkg : Int
  file_size : Int
  level : Int
  download : Int
  pkgurl : Option String
  comment : Option String
  category : Option String
  pkgpath : Option String
  keep : Int
  action : Int
  old : Option String
  deriving DecidableEq

/-- A catalog head, `Plisthead`: the entries in list order. -/
abbrev Plisthead := List Pkglist

/-- Numbered catalog, `Plistnumbered`: a head, the entry count and the list
type discriminator. -/
structure Plistnumbered where
  P_Plisthead : Plisthead
  P_count : Int
  P_type : Int
  deriving DecidableEq

/-- Record sorted by `search_pkg`, `struct pkg_sort`.  Every string member is
the result of `xstrdup`, which never returns `NULL`. -/
structure pkg_sort where
  full : String
  name : String
  version : String
  comment : String
  flag : Char
  deriving DecidableEq

/-- Comparison operators of `dewey.h`. -/
inductive DeweyOp where
  | DEWEY_LT
  | DEWEY_LE
  | DEWEY_EQ
  | DEWEY_GE
  | DEWEY_GT
  | DEWEY_NE
  deriving DecidableEq

/-! ## Events and outcomes -/

/-- An argument handed to a `printf`-family call. -/
inductive Arg where
  | str (s : Option String)
  | chr (c : Char)
  deriving DecidableEq

/-- Externally visible events of a run, in program order. -/
inductive Event where
  /-- A call `printf(fmt, args...)`: output to the standard output. -/
  | printf (fmt : String) (args : List Arg)
  /-- A call `fprintf(stderr, fmt, args...)`. -/
  | fprintf_stderr (fmt : String) (args : List Arg)
  /-- A call `version_check(first, second)`. -/
  | version_check (first second : Option String)
  /-- A call `pkgindb_doquery(query, pdb_rec_list, ...)`. -/
  | pkgindb_doquery (query : String)
  /-- A call `pkg_is_installed(..., pkg)` made by a listing or search loop. -/
  | pkg_is_installed (pkg : Pkglist)
  deriving DecidableEq

/-- Ways a run ends without returning. -/
inductive Stop where
  /-- Undefined behaviour: a `NULL` pointer is dereferenced. -/
  | null_deref
  /-- A format string and its arguments do not fit (undefined behaviour). -/
  | bad_format
  /-- The process is terminated by `errx(status, fmt, args...)`. -/
  | errx (status : Int) (fmt : String) (args : List Arg)
  deriving DecidableEq

/-- Outcome of a run: a returned value with the trace of events, or a stop. -/
abbrev Run (α : Type) := Except Stop (α × List Event)

/-- The lines a trace writes to the standard output, as `printf` calls. -/
def stdout : List Event → List (String × List Arg)
  | [] => []
  | Event.printf fmt args :: t => (fmt, args) :: stdout t
  | _ :: t => stdout t

/-- The `fprintf(stderr, ...)` calls of a trace. -/
def stderr : List Event → List (String × List Arg)
  | [] => []
  | Event.fprintf_stderr fmt args :: t => (fmt, args) :: stderr t
  | _ :: t => stderr t

/-- The comparator calls of a trace. -/
def version_checks : List Event → List (Option String × Option String)
  | [] => []
  | Event.version_check a b :: t => (a, b) :: version_checks t
  | _ :: t => version_checks t

/-- The queries a trace hands to the query executor. -/
def queries : List Event → List String
  | [] => []
  | Event.pkgindb_doquery q :: t => q :: queries t
  | _ :: t => queries t

/-- The candidates a trace hands to the installed-status resolver. -/
def resolved : List Event → List Pkglist
  | [] => []
  | Event.pkg_is_installed p :: t => p :: resolved t
  | _ :: t => resolved t

/-! ## Environment -/

/-- What `pkglist.c` takes from its headers and libraries. -/
structure Env where
  /-- Buffer size of `stdio.h` (at least 256). -/
  BUFSIZ : Nat
  /-- Listing type of the local list, `pkgin.h`. -/
  PKG_LLIST_CMD : Int
  /-- Success code of the query executor, `pkgin.h`. -/
  PDB_OK : Int
  /-- Default entry action, `pkgin.h`. -/
  DONOTHING : Int
  MSG_EMPTY_LOCAL_PKGLIST : String
  MSG_EMPTY_LIST : String
  MSG_IS_INSTALLED_CODE : String
  MSG_NO_SEARCH_RESULTS : String
  MSG_PKG_NOT_AVAIL : String
  MSG_NO_CATEGORIES : String
  SHOW_ALL_CATEGORIES : String
  REMOTE_PKGS_QUERY_ASC : String
  LOCAL_PKGS_QUERY_ASC : String
  /-- The global display-format flag (declared outside `pkglist.c`): non-zero
  selects the parsable format. -/
  pflag : Int
  /-- The global filter symbol of the status-filtered listing, NUL when
  unset. -/
  lslimit : Char
  /-- The version comparator `version_check(first_pkg, second_pkg)`; it
  receives the two pointers as they are passed. -/
  version_check : Option String → Option String → Int
  /-- The dewey comparator `dewey_cmp(lhs, op, rhs)`, non-zero when the
  relation `op` holds. -/
  dewey_cmp : String → DeweyOp → String → Int
  /-- The query executor with the row callback `pdb_rec_list`: from the query
  and the numbered list it is given, the status it returns and the numbered
  list it leaves. -/
  pkgindb_doquery : String → Plistnumbered → Int × Plistnumbered
  /-- The libc `regcomp` with flags `REG_EXTENDED|REG_NOSUB|REG_ICASE`:
  `Except.error rc` with the error text for a pattern that does not compile,
  else the compiled expression, given as the `regexec` result on each
  subject (zero for a match). -/
  regcomp : String → Except String (String → Int)
  /-- The libc `qsort` on an array of `struct pkg_sort`. -/
  qsort : (pkg_sort → pkg_sort → Int) → List pkg_sort → List pkg_sort

/-- Success status of `stdlib.h`. -/
def EXIT_SUCCESS : Int := 0

/-- Failure status of `stdlib.h`. -/
def EXIT_FAILURE : Int := 1

def PKG_EQUAL : Char := '='

def PKG_GREATER : Char := '>'

def PKG_LESSER : Char := '<'

/-! ## `malloc_pkglist` -/

/-- The entry returned by `malloc_pkglist`. -/
def malloc_pkglist (X : Env) : Pkglist :=
  { full := none
    name := none
    version := none
    build_date := none
    depend := none
    size_pkg := 0
    old_size_pkg := -1
    file_size := 0
    level := 0
    download := 0
    pkgurl := none
    comment := none
    category := none
    pkgpath := none
    keep := 0
    action := X.DONOTHING
    old := none }

/-! ## `pkg_is_installed` -/

/-- The resolver `pkg_is_installed(plisthead, pkg)`: the scan stops at the
first entry whose name equals the candidate's. -/
def pkg_is_installed (X : Env) : Plisthead → Pkglist → Run Int
  | [], _ => Except.ok (-1, [])
  | pkglist :: rest, pkg =>
    match pkglist.name, pkg.name with
    | some n1, some n2 =>
      if strcmp n1 n2 ≠ 0 then pkg_is_installed X rest pkg
      else
        match pkglist.version, pkg.version with
        | some v1, some v2 =>
          if strcmp v1 v2 = 0 then Except.ok (0, [])
          else Except.ok (X.version_check pkglist.full pkg.full,
                  [Event.version_check pkglist.full pkg.full])
        | _, _ => Except.error Stop.null_deref
    | _, _ => Except.error Stop.null_deref

/-! ## Formatting (`snprintf`, `strncpy`, `setfmt`) -/

/-- Where the scan of a format string stands: in plain text, just after a
percent sign, after the flags, or inside the field width. -/
inductive FmtState where
  | text
  | pct
  | flags (left : Bool)
  | width (left : Bool) (w : Nat)
  deriving DecidableEq

/-- Padding of a converted value to the field width `w` with blanks, on the
right when the `-` flag is given and on the left otherwise. -/
def pad (left : Bool) (w : Nat) (s : List Char) : List Char :=
  if left then s ++ List.replicate (w - s.length) ' '
  else List.replicate (w - s.length) ' ' ++ s

/-- One conversion `%s` or `%c` applied to the next argument: the converted
text and the arguments left.  A `NULL` string, a missing or ill-typed
argument and any other conversion are undefined. -/
def convert (left : Bool) (w : Nat) (c : Char) (args : List Arg) :
    Except Stop (List Char × List Arg) :=
  if c = 's' then
    match args with
    | Arg.str (some v) :: rest => Except.ok (pad left w v.data, rest)
    | Arg.str none :: _ => Except.error Stop.null_deref
    | _ => Except.error Stop.bad_format
  else if c = 'c' then
    match args with
    | Arg.chr v :: rest => Except.ok (pad left w [v], rest)
    | _ => Except.error Stop.bad_format
  else Except.error Stop.bad_format

/-- The characters a `printf`-family call produces from a format and its
arguments, for the conversions `%s`, `%c` (with an optional `-` flag and
field width) and `%%`. -/
def vformat : FmtState → List Char → List Arg → Except Stop (List Char)
  | FmtState.text, [], _ => Except.ok []
  | _, [], _ => Except.error Stop.bad_format
  | FmtState.text, c :: fmt, args =>
    if c = '%' then vformat FmtState.pct fmt args
    else (vformat FmtState.text fmt args).map (fun out => c :: out)
  | FmtState.pct, c :: fmt, args =>
    if c = '%' then (vformat FmtState.text fmt args).map (fun out => '%' :: out)
    else if c = '-' then vformat (FmtState.flags true) fmt args
    else if '1' ≤ c ∧ c ≤ '9' then vformat (FmtState.width false (c.toNat - 48)) fmt args
    else
      match convert false 0 c args with
      | Except.ok (txt, rest) =>
        (vformat FmtState.text fmt rest).map (fun out => txt ++ out)
      | Except.error e => Except.error e
  | FmtState.flags left, c :: fmt, args =>
    if c = '-' then vformat (FmtState.flags true) fmt args
    else if '1' ≤ c ∧ c ≤ '9' then vformat (FmtState.width left (c.toNat - 48)) fmt args
    else
      match convert left 0 c args with
      | Except.ok (txt, rest) =>
        (vformat FmtState.text fmt rest).map (fun out => txt ++ out)
      | Except.error e => Except.error e
  | FmtState.width left w, c :: fmt, args =>
    if '0' ≤ c ∧ c ≤ '9' then vformat (FmtState.width left (10 * w + (c.toNat - 48))) fmt args
    else
      match convert left w c args with
      | Except.ok (txt, rest) =>
        (vformat FmtState.text fmt rest).map (fun out => txt ++ out)
      | Except.error e => Except.error e

/-- The string left in a buffer of `size` characters by
`snprintf(buf, size, fmt, args...)`: at most `size - 1` characters of the
formatted text, read back up to the first NUL. -/
def snprintf (size : Nat) (fmt : String) (args : List Arg) : Except Stop String :=
  (vformat FmtState.text fmt.data args).map
    (fun out => String.mk ((out.take (size - 1)).takeWhile (fun ch => ch ≠ '\x00')))

/-- The text a call `printf(fmt, args...)` writes to the standard output. -/
def printf_text (call : String × List Arg) : Except Stop String :=
  (vformat FmtState.text call.1.data call.2).map String.mk

/-- The libc `vsnprintf`, which formats as `snprintf` does. -/
def vsnprintf (size : Nat) (fmt : String) (ap : List Arg) : Except Stop String :=
  snprintf size fmt ap

/-- The string held by a buffer of `cap` characters after
`strncpy(buf, src, n)`: defined when `n` characters fit in the buffer and the
copy includes the terminating NUL. -/
def strncpy (cap : Nat) (src : String) (n : Nat) : Except Stop String :=
  if n ≤ cap ∧ src.length < n then Except.ok src else Except.error Stop.bad_format

/-- The two formats chosen by `setfmt(sfmt, pfmt)`, both buffers being ten
characters long: first the `snprintf` format, then the final `printf` one. -/
def setfmt (X : Env) : Except Stop (String × String) :=
  if X.pflag ≠ 0 then
    match strncpy 10 "%s;%c" 6, strncpy 10 "%s;%s\n" 7 with
    | Except.ok sfmt, Except.ok pfmt => Except.ok (sfmt, pfmt)
    | _, _ => Except.error Stop.bad_format
  else
    match strncpy 10 "%s %c" 6, strncpy 10 "%-20s %s\n" 10 with
    | Except.ok sfmt, Except.ok pfmt => Except.ok (sfmt, pfmt)
    | _, _ => Except.error Stop.bad_format

/-! ## `rec_pkglist` -/

/-- The empty head returned by `init_head`. -/
def init_head : Plisthead := []

/-- The populate operation `rec_pkglist(fmt, ...)`: the numbered list filled
by the query executor, or `none` (`NULL`) when the executor does not report
`PDB_OK`. -/
def rec_pkglist (X : Env) (fmt : String) (ap : List Arg) : Run (Option Plistnumbered) :=
  let plist : Plistnumbered := { P_Plisthead := init_head, P_count := 0, P_type := 0 }
  match vsnprintf X.BUFSIZ fmt ap with
  | Except.error e => Except.error e
  | Except.ok query =>
    if (X.pkgindb_doquery query plist).1 = X.PDB_OK then
      Except.ok (some (X.pkgindb_doquery query plist).2, [Event.pkgindb_doquery query])
    else
      Except.ok (none, [Event.pkgindb_doquery query])

/-! ## `list_pkgs` -/

/-- The status symbol chosen in the loop of `list_pkgs` for the resolver
result `rc` under the filter symbol `lslimit`. -/
def list_pkgstatus (lslimit : Char) (rc : Int) : Char :=
  let pkgstatus := '\x00'
  let pkgstatus := if lslimit = PKG_EQUAL ∧ rc = 0 then PKG_EQUAL else pkgstatus
  let pkgstatus := if lslimit = PKG_GREATER ∧ rc = 1 then PKG_GREATER else pkgstatus
  let pkgstatus := if lslimit = PKG_LESSER ∧ rc = 2 then PKG_LESSER else pkgstatus
  pkgstatus

/-- The loop `SLIST_FOREACH(plist, &r_plisthead, next)` of the status-filtered
listing. -/
def list_pkgs_loop (X : Env) (sfmt pfmt : String) (l_plisthead : Plisthead) :
    Plisthead → Run Unit
  | [] => Except.ok ((), [])
  | plist :: rest =>
    match pkg_is_installed X l_plisthead plist with
    | Except.error e => Except.error e
    | Except.ok (rc, tr1) =>
      let pkgstatus := list_pkgstatus X.lslimit rc
      if pkgstatus ≠ '\x00' then
        match snprintf X.BUFSIZ sfmt [Arg.str plist.full, Arg.chr pkgstatus] with
        | Except.error e => Except.error e
        | Except.ok outpkg =>
          match list_pkgs_loop X sfmt pfmt l_plisthead rest with
          | Except.error e => Except.error e
          | Except.ok (_, tr2) =>
            Except.ok ((), Event.pkg_is_installed plist :: tr1 ++
              Event.printf pfmt [Arg.str (some outpkg), Arg.str plist.comment] :: tr2)
      else
        match list_pkgs_loop X sfmt pfmt l_plisthead rest with
        | Except.error e => Except.error e
        | Except.ok (_, tr2) => Except.ok ((), Event.pkg_is_installed plist :: tr1 ++ tr2)

/-- The listing `list_pkgs(pkgquery, lstype)` over the local catalog
`l_plisthead` and the remote catalog `r_plisthead`. -/
def list_pkgs (X : Env) (l_plisthead r_plisthead : Plisthead) (pkgquery : String)
    (lstype : Int) : Run Unit :=
  match setfmt X with
  | Except.error e => Except.error e
  | Except.ok (sfmt, pfmt) =>
    if lstype = X.PKG_LLIST_CMD ∧ X.lslimit ≠ '\x00' then
      if l_plisthead = [] then
        Except.ok ((), [Event.fprintf_stderr X.MSG_EMPTY_LOCAL_PKGLIST []])
      else if r_plisthead ≠ [] then
        list_pkgs_loop X sfmt pfmt l_plisthead r_plisthead
      else
        Except.ok ((), [])
    else
      match rec_pkglist X pkgquery [] with
      | Except.error e => Except.error e
      | Except.ok (none, tr) =>
        Except.ok ((), tr ++ [Event.fprintf_stderr X.MSG_EMPTY_LIST []])
      | Except.ok (some plisthead, tr) =>
        Except.ok ((), tr ++ plisthead.P_Plisthead.map
          (fun plist => Event.printf pfmt [Arg.str plist.full, Arg.str plist.comment]))

/-! ## `pkg_sort_cmp` and `search_pkg` -/

/-- The comparator `pkg_sort_cmp(a, b)` handed to `qsort`: by name, then by
version with the higher version first. -/
def pkg_sort_cmp (X : Env) (p1 p2 : pkg_sort) : Int :=
  if strcmp p1.name p2.name > 0 then 1
  else if strcmp p1.name p2.name < 0 then -1
  else if X.dewey_cmp p1.version DeweyOp.DEWEY_LT p2.version ≠ 0 then 1
  else if X.dewey_cmp p1.version DeweyOp.DEWEY_GT p2.version ≠ 0 then -1
  else 0

/-- Modelled from the spec: `xstrdup` of pkgin's tools, which is not part of
`pkglist.c`; search captures each field of a match as it is, so the copy
equals the string it is given.  Copying `NULL` is undefined. -/
def xstrdup : Option String → Except Stop String
  | some s => Except.ok s
  | none => Except.error Stop.null_deref

/-- The libc `regexec` on a compiled expression and a subject pointer: zero
for a match.  A `NULL` subject is undefined. -/
def regexec (re : String → Int) : Option String → Except Stop Int
  | some s => Except.ok (re s)
  | none => Except.error Stop.null_deref

/-- The condition of the scan of `search_pkg`: the expression matches the
name, or else the full identifier, or else the comment; a later field is
looked at only when the earlier ones do not match. -/
def search_match (re : String → Int) (plist : Pkglist) : Except Stop Bool :=
  match regexec re plist.name with
  | Except.error e => Except.error e
  | Except.ok r1 =>
    if r1 = 0 then Except.ok true
    else
      match regexec re plist.full with
      | Except.error e => Except.error e
      | Except.ok r2 =>
        if r2 = 0 then Except.ok true
        else
          match regexec re plist.comment with
          | Except.error e => Except.error e
          | Except.ok r3 => Except.ok (decide (r3 = 0))

/-- The status symbol `is_inst` chosen by `search_pkg` for the resolver
result `rc`. -/
def search_is_inst (rc : Int) : Char :=
  if rc = 0 then PKG_EQUAL
  else if rc = 1 then PKG_GREATER
  else if rc = 2 then PKG_LESSER
  else '\x00'

/-- The record appended to `psort` for a matching entry with status symbol
`is_inst`: the four strings are copied with `xstrdup`. -/
def search_record (plist : Pkglist) (is_inst : Char) : Except Stop pkg_sort :=
  match xstrdup plist.full, xstrdup plist.name, xstrdup plist.version,
      xstrdup plist.comment with
  | Except.ok full, Except.ok name, Except.ok version, Except.ok comment =>
    Except.ok { full := full, name := name, version := version, comment := comment,
                flag := is_inst }
  | Except.error e, _, _, _ => Except.error e
  | _, Except.error e, _, _ => Except.error e
  | _, _, Except.error e, _ => Except.error e
  | _, _, _, Except.error e => Except.error e

/-- The scan `SLIST_FOREACH(plist, &r_plisthead, next)` of `search_pkg`, from
the current values of `matched` and of the array `psort` to their final
values. -/
def search_scan (X : Env) (re : String → Int) (l_plisthead : Plisthead) :
    Plisthead → Int → List pkg_sort → Run (Int × List pkg_sort)
  | [], matched, psort => Except.ok ((matched, psort), [])
  | plist :: rest, matched, psort =>
    match search_match re plist with
    | Except.error e => Except.error e
    | Except.ok false => search_scan X re l_plisthead rest matched psort
    | Except.ok true =>
      match pkg_is_installed X l_plisthead plist with
      | Except.error e => Except.error e
      | Except.ok (rc, tr1) =>
        match search_record plist (search_is_inst rc) with
        | Except.error e => Except.error e
        | Except.ok rec =>
          match search_scan X re l_plisthead rest 1 (psort ++ [rec]) with
          | Except.error e => Except.error e
          | Except.ok (res, tr2) =>
            Except.ok (res, Event.pkg_is_installed plist :: tr1 ++ tr2)

/-- The rendering loop of `search_pkg` over the sorted array. -/
def search_render (X : Env) (sfmt pfmt : String) : List pkg_sort → Run Unit
  | [] => Except.ok ((), [])
  | p :: rest =>
    match snprintf X.BUFSIZ sfmt [Arg.str (some p.full), Arg.chr p.flag] with
    | Except.error e => Except.error e
    | Except.ok outpkg =>
      match search_render X sfmt pfmt rest with
      | Except.error e => Except.error e
      | Except.ok (_, tr) =>
        Except.ok ((), Event.printf pfmt [Arg.str (some outpkg), Arg.str (some p.comment)] :: tr)

/-- The search `search_pkg(pattern)` over the remote catalog `r_plisthead`,
with installed status resolved against the local catalog `l_plisthead`; the
value returned is the exit status.  The counter `pcount` is the length of
`psort`; `qsort` sorts the array in place and the rendering loop runs over its
`pcount` elements. -/
def search_pkg (X : Env) (l_plisthead r_plisthead : Plisthead) (pattern : String) :
    Run Int :=
  match setfmt X with
  | Except.error e => Except.error e
  | Except.ok (sfmt, pfmt) =>
    match X.regcomp pattern with
    | Except.error eb =>
      Except.error (Stop.errx EXIT_FAILURE "regcomp: %s: %s"
        [Arg.str (some pattern), Arg.str (some eb)])
    | Except.ok re =>
      match search_scan X re l_plisthead r_plisthead 0 [] with
      | Except.error e => Except.error e
      | Except.ok ((matched, psort), tr1) =>
        match search_render X sfmt pfmt
            ((X.qsort (pkg_sort_cmp X) psort).take psort.length) with
        | Except.error e => Except.error e
        | Except.ok (_, tr2) =>
          if matched ≠ 0 then
            Except.ok (EXIT_SUCCESS, tr1 ++ tr2 ++ [Event.printf X.MSG_IS_INSTALLED_CODE []])
          else
            Except.ok (EXIT_FAILURE, tr1 ++ tr2 ++
              [Event.printf X.MSG_NO_SEARCH_RESULTS [Arg.str (some pattern)]])

/-! ## Category utilities -/

/-- The listing `show_category(category)` over the remote catalog: entries
without a category are skipped before the comparison. -/
def show_category (r_plisthead : Plisthead) (category : Option String) : Run Unit :=
  match r_plisthead with
  | [] => Except.ok ((), [])
  | plist :: rest =>
    match plist.category with
    | none => show_category rest category
    | some c =>
      match category with
      | none => Except.error Stop.null_deref
      | some arg =>
        match show_category rest category with
        | Except.error e => Except.error e
        | Except.ok (_, tr) =>
          if strcmp c arg = 0 then
            Except.ok ((), Event.printf "%-20s %s\n"
              [Arg.str plist.full, Arg.str plist.comment] :: tr)
          else Except.ok ((), tr)

/-- The loop of `show_pkg_category(pkgname)`, from the current value of
`matched` to its final value. -/
def show_pkg_category_loop (pkgname : Option String) : Plisthead → Int → Run Int
  | [], matched => Except.ok (matched, [])
  | plist :: rest, matched =>
    match plist.name, pkgname with
    | some n, some arg =>
      if strcmp n arg = 0 then
        match plist.category with
        | none => show_pkg_category_loop pkgname rest 1
        | some c =>
          match show_pkg_category_loop pkgname rest 1 with
          | Except.error e => Except.error e
          | Except.ok (m, tr) =>
            Except.ok (m, Event.printf "%-12s - %s\n"
              [Arg.str (some c), Arg.str plist.full] :: tr)
      else show_pkg_category_loop pkgname rest matched
    | _, _ => Except.error Stop.null_deref

/-- The lookup `show_pkg_category(pkgname)` over the remote catalog; the value
returned is the exit status. -/
def show_pkg_category (X : Env) (r_plisthead : Plisthead) (pkgname : Option String) :
    Run Int :=
  match show_pkg_category_loop pkgname r_plisthead 0 with
  | Except.error e => Except.error e
  | Except.ok (matched, tr) =>
    if matched ≠ 0 then Except.ok (EXIT_SUCCESS, tr)
    else Except.ok (EXIT_FAILURE, tr ++
      [Event.fprintf_stderr X.MSG_PKG_NOT_AVAIL [Arg.str pkgname]])

/-- The listing `show_all_categories()`. -/
def show_all_categories (X : Env) : Run Unit :=
  match rec_pkglist X X.SHOW_ALL_CATEGORIES [] with
  | Except.error e => Except.error e
  | Except.ok (none, tr) =>
    Except.ok ((), tr ++ [Event.fprintf_stderr X.MSG_NO_CATEGORIES []])
  | Except.ok (some cathead, tr) =>
    Except.ok ((), tr ++ cathead.P_Plisthead.map
      (fun plist => Event.printf "%s\n" [Arg.str plist.full]))

/-! ## Global catalogs -/

/-- The process-wide state of `pkglist.c`: the remote and the local catalog
and their entry counters. -/
structure Globals where
  r_plisthead : Plisthead
  l_plisthead : Plisthead
  r_plistcounter : Int
  l_plistcounter : Int
  deriving DecidableEq

/-- The set-up `init_global_pkglists()`: each catalog is what the executor
leaves from an empty list on the fixed query, each counter the count it
reports; the status it returns is not looked at. -/
def init_global_pkglists (X : Env) (g : Globals) : Globals × List Event :=
  let rplist := (X.pkgindb_doquery X.REMOTE_PKGS_QUERY_ASC
    { P_Plisthead := [], P_count := 0, P_type := 1 }).2
  let lplist := (X.pkgindb_doquery X.LOCAL_PKGS_QUERY_ASC
    { P_Plisthead := [], P_count := 0, P_type := 0 }).2
  ({ g with r_plisthead := rplist.P_Plisthead, r_plistcounter := rplist.P_count,
            l_plisthead := lplist.P_Plisthead, l_plistcounter := lplist.P_count },
   [Event.pkgindb_doquery X.REMOTE_PKGS_QUERY_ASC,
    Event.pkgindb_doquery X.LOCAL_PKGS_QUERY_ASC])

/-- The loop of `free_global_pkglist(plisthead)`: the head entry is removed
and released until the list is empty. -/
def free_global_pkglist : Plisthead → Plisthead
  | [] => []
  | _ :: rest => free_global_pkglist rest

/-- The teardown `free_global_pkglists()`: both catalogs are emptied, the
local one first; the counters are not assigned. -/
def free_global_pkglists (g : Globals) : Globals :=
  { g with l_plisthead := free_global_pkglist g.l_plisthead,
           r_plisthead := free_global_pkglist g.r_plisthead }

/-- The release `free_pkglist(&plisthead)` of a heap-allocated head: a `NULL`
head is left as it is, any other is emptied, released and set to `NULL`. -/
def free_pkglist : Option Plisthead → Option Plisthead
  | none => none
  | some _ => none

/-! ## Closed forms used in the statements -/

/-- An entry that can be compared: its name and its version are present. -/
def comparable (e : Pkglist) : Bool := e.name.isSome && e.version.isSome

/-- A populated entry: comparable, with its full identifier present. -/
def populated (e : Pkglist) : Bool := e.full.isSome && comparable e

/-- The `snprintf` format selected by `setfmt`. -/
def sfmt_of (X : Env) : String := if X.pflag ≠ 0 then "%s;%c" else "%s %c"

/-- The `printf` format selected by `setfmt`. -/
def pfmt_of (X : Env) : String := if X.pflag ≠ 0 then "%s;%s\n" else "%-20s %s\n"

/-- The string held by `outpkg` once `snprintf(outpkg, BUFSIZ, sfmt, full,
status)` has run: the identifier, the separator of the selected format and the
status character, cut to `BUFSIZ - 1` characters and at the first NUL. -/
def outpkg (X : Env) (full : String) (status : Char) : String :=
  String.mk (((full.data ++ [if X.pflag ≠ 0 then ';' else ' ', status]).take
    (X.BUFSIZ - 1)).takeWhile (fun ch => ch ≠ '\x00'))

/-- The resolver returns `rc` for the candidate `e` against the catalog `l`. -/
def resolves_to (X : Env) (l : Plisthead) (e : Pkglist) (rc : Int) : Bool :=
  match pkg_is_installed X l e with
  | Except.ok (rc1, _) => decide (rc1 = rc)
  | Except.error _ => false

/-- The entries a status-filtered listing selects under the filter symbol
`lslimit`: equal for `=`, result 1 for `>`, result 2 for `<`. -/
def list_selected (X : Env) (l : Plisthead) (e : Pkglist) : Bool :=
  (decide (X.lslimit = '=') && resolves_to X l e 0) ||
  (decide (X.lslimit = '>') && resolves_to X l e 1) ||
  (decide (X.lslimit = '<') && resolves_to X l e 2)

/-- The `printf` call of a status-filtered listing for the entry `e`. -/
def list_line (X : Env) (e : Pkglist) : String × List Arg :=
  (pfmt_of X, [Arg.str (e.full.map (fun full => outpkg X full X.lslimit)), Arg.str e.comment])

/-- An entry the search can read: populated, with its comment present. -/
def searchable (e : Pkglist) : Bool := populated e && e.comment.isSome

/-- The compiled expression matches the string behind a pointer; it matches
no absent string. -/
def regex_matches (re : String → Int) : Option String → Bool
  | some s => decide (re s = 0)
  | none => false

/-- The pattern matches the entry: it matches its name, or its full
identifier, or its comment. -/
def pattern_matches (re : String → Int) (e : Pkglist) : Bool :=
  regex_matches re e.name || regex_matches re e.full || regex_matches re e.comment

/-- The record `search_pkg` captures for the matching entry `e`: its full
identifier, name, version and comment, and the status symbol of the resolver
result against the local catalog `l`.  An absent string reads as empty and a
resolver that stops as no symbol; neither occurs for a searchable entry and a
catalog of comparable entries. -/
def search_record_of (X : Env) (l : Plisthead) (e : Pkglist) : pkg_sort :=
  { full := e.full.getD ""
    name := e.name.getD ""
    version := e.version.getD ""
    comment := e.comment.getD ""
    flag :=
      match pkg_is_installed X l e with
      | Except.ok (rc, _) => search_is_inst rc
      | Except.error _ => '\x00' }

/-- The `printf` call of `search_pkg` for the sorted record `p`. -/
def search_line (X : Env) (p : pkg_sort) : String × List Arg :=
  (pfmt_of X, [Arg.str (some (outpkg X p.full p.flag)), Arg.str (some p.comment)])

/-- The array `psort` when the scan of `search_pkg` ends: the records of the
entries the pattern matches, in catalog order. -/
def search_psort (X : Env) (re : String → Int) (l r : Plisthead) : List pkg_sort :=
  (r.filter (pattern_matches re)).map (search_record_of X l)

/-- The array `psort` after `qsort`, as the rendering loop of `search_pkg`
reads it. -/
def search_sorted (X : Env) (re : String → Int) (l r : Plisthead) : List pkg_sort :=
  (X.qsort (pkg_sort_cmp X) (search_psort X re l r)).take (search_psort X re l r).length

/-- The order `search_pkg` is to render its records in: names ascending
under `strcmp` and, for equal names, the first version dewey-greater than or
equal to the second. -/
def search_order (X : Env) (a b : pkg_sort) : Prop :=
  strcmp a.name b.name ≤ 0 ∧
  (a.name = b.name →
    X.dewey_cmp a.version DeweyOp.DEWEY_GT b.version ≠ 0 ∨ a.version = b.version)

/-- The `printf` call of a full listing for the entry `e`. -/
def full_line (X : Env) (e : Pkglist) : String × List Arg :=
  (pfmt_of X, [Arg.str e.full, Arg.str e.comment])

/-- The status code of a rendered record as text: the status character, or
nothing when the character is NUL (no status applies). -/
def status_text (c : Char) : String := if c = '\x00' then "" else String.singleton c

/-- The number of newline characters of a text. -/
def newlines (s : String) : Nat := s.data.count '\n'

/-- Modelled from the spec: the row callback `pdb_rec_list`, which is not part
of `pkglist.c`; invoked for a result row, it appends the row's entry to the
catalog of the numbered list it is given and increments its count. -/
def pdb_rec_list (plist : Plistnumbered) (row : Pkglist) : Plistnumbered :=
  { plist with P_Plisthead := plist.P_Plisthead ++ [row], P_count := plist.P_count + 1 }

/-- Modelled from the spec: what the query executor leaves of the numbered
list it is given when the query yields the rows `rows`, the callback being
invoked once per row in result order. -/
def deliver (rows : List Pkglist) (plist : Plistnumbered) : Plistnumbered :=
  rows.foldl pdb_rec_list plist

/-- The `printf` call of `show_category` for the entry `e`. -/
def category_line (e : Pkglist) : String × List Arg :=
  ("%-20s %s\n", [Arg.str e.full, Arg.str e.comment])

/-- The `printf` call of `show_pkg_category` for the entry `e`, when it has a
category. -/
def pkg_category_line (e : Pkglist) : Option (String × List Arg) :=
  e.category.map (fun c => ("%-12s - %s\n", [Arg.str (some c), Arg.str e.full]))

/-! ## Sample data -/

/-- A populated entry with the given name, version and comment. -/
def sample_pkg (name version comment : String) : Pkglist :=
  { full := some (name ++ "-" ++ version)
    name := some name
    version := some version
    build_date := none
    depend := none
    size_pkg := 0
    old_size_pkg := -1
    file_size := 0
    level := 0
    download := 0
    pkgurl := none
    comment := some comment
    category := none
    pkgpath := none
    keep := 0
    action := -1
    old := none }

/-- A populated entry in the given category, or in none. -/
def sample_pkg_in (name version comment : String) (category : Option String) : Pkglist :=
  { sample_pkg name version comment with category := category }

/-- Insertion of `x` into a list sorted by `cmp`. -/
def sample_insert (cmp : pkg_sort → pkg_sort → Int) (x : pkg_sort) : List pkg_sort → List pkg_sort
  | [] => [x]
  | y :: ys => if cmp x y ≤ 0 then x :: y :: ys else y :: sample_insert cmp x ys

/-- An insertion sort, standing for `qsort`. -/
def sample_qsort (cmp : pkg_sort → pkg_sort → Int) : List pkg_sort → List pkg_sort
  | [] => []
  | x :: xs => sample_insert cmp x (sample_qsort cmp xs)

/-- The character sequence `p` occurs in `s`. -/
def sample_contains (p : List Char) : List Char → Bool
  | [] => p.isPrefixOf []
  | c :: s => p.isPrefixOf (c :: s) || sample_contains p s

/-- A stand-in for a compiled expression: it matches the subjects the
pattern occurs in. -/
def sample_regex (pattern : String) : String → Int :=
  fun subject => if sample_contains pattern.data subject.data then 0 else 1

/-- An environment with the parsable format selected, the filter symbol `=`,
comparators that order strings as `strcmp` does, an executor that delivers no
row, and expressions that match the subjects their pattern occurs in. -/
def sample_env : Env :=
  { BUFSIZ := 1024
    PKG_LLIST_CMD := 7
    PDB_OK := 0
    DONOTHING := -1
    MSG_EMPTY_LOCAL_PKGLIST := "Local package list is empty.\n"
    MSG_EMPTY_LIST := "Requested list is empty.\n"
    MSG_IS_INSTALLED_CODE := "=: package is installed and up-to-date\n"
    MSG_NO_SEARCH_RESULTS := "No results found for %s\n"
    MSG_PKG_NOT_AVAIL := "%s is not available in the repository\n"
    MSG_NO_CATEGORIES := "No categories found.\n"
    SHOW_ALL_CATEGORIES := "SELECT DISTINCT CATEGORIES FROM REMOTE_PKG;"
    REMOTE_PKGS_QUERY_ASC := "SELECT * FROM REMOTE_PKG ORDER BY FULLPKGNAME ASC;"
    LOCAL_PKGS_QUERY_ASC := "SELECT * FROM LOCAL_PKG ORDER BY FULLPKGNAME ASC;"
    pflag := 1
    lslimit := '='
    version_check := fun first second =>
      match first, second with
      | some a, some b => if strcmp a b > 0 then 1 else 2
      | _, _ => 2
    dewey_cmp := fun lhs op rhs =>
      match op with
      | DeweyOp.DEWEY_LT => if strcmp lhs rhs < 0 then 1 else 0
      | DeweyOp.DEWEY_LE => if strcmp lhs rhs ≤ 0 then 1 else 0
      | DeweyOp.DEWEY_EQ => if strcmp lhs rhs = 0 then 1 else 0
      | DeweyOp.DEWEY_GE => if strcmp lhs rhs ≥ 0 then 1 else 0
      | DeweyOp.DEWEY_GT => if strcmp lhs rhs > 0 then 1 else 0
      | DeweyOp.DEWEY_NE => if strcmp lhs rhs ≠ 0 then 1 else 0
    pkgindb_doquery := fun _ plist => (0, plist)
    regcomp := fun pattern =>
      if pattern = "(" then Except.error "parentheses not balanced"
      else Except.ok (sample_regex pattern)
    qsort := sample_qsort }

/-- The sample environment with an executor that succeeds and delivers two
rows. -/
def sample_env_rows : Env :=
  { sample_env with
    pkgindb_doquery := fun _ plist =>
      (0, deliver [sample_pkg "bar" "1.0" "a bar", sample_pkg "foo" "2.0" "a foo"] plist) }

/-- The sample environment with an executor that reports failure. -/
def sample_env_failing : Env :=
  { sample_env with pkgindb_doquery := fun _ plist => (-1, plist) }

/-! ## Lemmas on strings -/

theorem strcmpAux_eq_zero_iff (a b : List Char) : strcmpAux a b = 0 ↔ a = b := by
  induction a generalizing b with
  | nil => cases b <;> simp [strcmpAux]
  | cons x xs ih =>
    cases b with
    | nil => simp [strcmpAux]
    | cons y ys =>
      simp only [strcmpAux]
      split_ifs with h1 h2
      · constructor
        · intro h; simp at h
        · intro h; simp only [List.cons.injEq] at h; rw [h.1] at h1; omega
      · constructor
        · intro h; simp at h
        · intro h; simp only [List.cons.injEq] at h; rw [h.1] at h2; omega
      · have hxy : x = y := by
          have : x.toNat = y.toNat := by omega
          rw [← Char.ofNat_toNat x, ← Char.ofNat_toNat y, this]
        rw [ih ys]; simp [hxy]

/-- Two strings compare equal under `strcmp` exactly when they are the same
string. -/
theorem strcmp_eq_zero_iff (s1 s2 : String) : strcmp s1 s2 = 0 ↔ s1 = s2 := by
  unfold strcmp
  rw [strcmpAux_eq_zero_iff]
  constructor
  · intro h; exact String.ext h
  · intro h; rw [h]

/-! ## The resolver `pkg_is_installed` -/

/-- The sample comparator only yields the codes 1 and 2. -/
theorem sample_version_check_range (a b : Option String) :
    sample_env.version_check a b = 1 ∨ sample_env.version_check a b = 2 := by
  cases a with
  | none => right; rfl
  | some x =>
    cases b with
    | none => right; rfl
    | some y =>
      by_cases h : strcmp x y > 0
      · left; simp only [sample_env, h, if_true]
      · right; simp only [sample_env, h, if_false]

/-- The scan passes over leading entries whose names differ from the
candidate's. -/
theorem pkg_is_installed_skip (X : Env) (pre rest : Plisthead) (pkg : Pkglist)
    (h : ∀ e ∈ pre, ∃ n1 n2, e.name = some n1 ∧ pkg.name = some n2 ∧ n1 ≠ n2) :
    pkg_is_installed X (pre ++ rest) pkg = pkg_is_installed X rest pkg := by
  induction pre with
  | nil => rfl
  | cons e es ih =>
    obtain ⟨n1, n2, h1, h2, hne⟩ := h e (List.mem_cons_self _ _)
    have hs : strcmp n1 n2 ≠ 0 := fun hc => hne ((strcmp_eq_zero_iff n1 n2).1 hc)
    simp only [List.cons_append, pkg_is_installed, h1, h2]
    rw [if_pos hs]
    exact ih (fun e' he' => h e' (List.mem_cons_of_mem _ he'))

/-- C1: when every entry of the catalog has a name and none of these names
equals the candidate's name, `pkg_is_installed` returns the sentinel -1 and its
trace is empty, so `version_check` is not called; so it is on the empty
catalog, for every candidate. -/
theorem pkg_is_installed_not_found (X : Env) (plisthead : Plisthead) (pkg : Pkglist)
    (h : ∀ e ∈ plisthead, ∃ n1 n2, e.name = some n1 ∧ pkg.name = some n2 ∧ n1 ≠ n2) :
    pkg_is_installed X plisthead pkg = Except.ok (-1, []) ∧
    pkg_is_installed X [] pkg = Except.ok (-1, []) := by
  refine ⟨?_, rfl⟩
  have hskip := pkg_is_installed_skip X plisthead [] pkg h
  rw [List.append_nil] at hskip
  rw [hskip]
  rfl

theorem pkg_is_installed_not_found_witness :
    pkg_is_installed sample_env
        [sample_pkg "bar" "1.0" "a bar", sample_pkg "baz" "2.0" "a baz"]
        (sample_pkg "foo" "1.0" "a foo") = Except.ok (-1, []) ∧
    pkg_is_installed sample_env [] (sample_pkg "foo" "1.0" "a foo") = Except.ok (-1, []) :=
  pkg_is_installed_not_found sample_env
    [sample_pkg "bar" "1.0" "a bar", sample_pkg "baz" "2.0" "a baz"]
    (sample_pkg "foo" "1.0" "a foo")
    (by
      intro e he
      simp only [List.mem_cons, List.mem_singleton, List.not_mem_nil, or_false] at he
      rcases he with rfl | rfl
      · exact ⟨"bar", "foo", rfl, rfl, by decide⟩
      · exact ⟨"baz", "foo", rfl, rfl, by decide⟩)

/-- C2: when the first entry `m` bearing the candidate's name `n` has the
candidate's version string `v`, `pkg_is_installed` returns 0 with an empty
trace, in every environment, so whatever `version_check` would return; the
catalog `[m]` is the case of no entry before or after `m`. -/
theorem pkg_is_installed_equal (X : Env) (pre post : Plisthead) (m pkg : Pkglist)
    (n v : String)
    (hpre : ∀ e ∈ pre, ∃ n1, e.name = some n1 ∧ n1 ≠ n)
    (hn : pkg.name = some n) (hm : m.name = some n)
    (hv : pkg.version = some v) (hmv : m.version = some v) :
    pkg_is_installed X (pre ++ [m] ++ post) pkg = Except.ok (0, []) ∧
    pkg_is_installed X [m] pkg = Except.ok (0, []) := by
  have hone : ∀ rest, pkg_is_installed X (m :: rest) pkg = Except.ok (0, []) := by
    intro rest
    simp [pkg_is_installed, hn, hm, hv, hmv, strcmp_eq_zero_iff]
  refine ⟨?_, hone []⟩
  rw [List.append_assoc, pkg_is_installed_skip X pre ([m] ++ post) pkg
    (fun e he => by
      obtain ⟨n1, h1, hne⟩ := hpre e he
      exact ⟨n1, n, h1, hn, hne⟩)]
  exact hone post

theorem pkg_is_installed_equal_witness :
    pkg_is_installed sample_env
        ([sample_pkg "bar" "1.0" "a bar"] ++ [sample_pkg "foo" "1.0" "installed"] ++
          [sample_pkg "foo" "2.0" "other"])
        (sample_pkg "foo" "1.0" "a foo") = Except.ok (0, []) ∧
    pkg_is_installed sample_env [sample_pkg "foo" "1.0" "installed"]
        (sample_pkg "foo" "1.0" "a foo") = Except.ok (0, []) :=
  pkg_is_installed_equal sample_env [sample_pkg "bar" "1.0" "a bar"]
    [sample_pkg "foo" "2.0" "other"] (sample_pkg "foo" "1.0" "installed")
    (sample_pkg "foo" "1.0" "a foo") "foo" "1.0"
    (by
      intro e he
      simp only [List.mem_singleton] at he
      subst he
      exact ⟨"bar", rfl, by decide⟩)
    rfl rfl rfl rfl

/-- C3: when the first entry `m` bearing the candidate's name has a version
string different from the candidate's, `pkg_is_installed` returns the value of
`version_check(m.full, pkg.full)`, called once with the matched entry's
identifier first; if the comparator only yields 1 and 2, the result is 1 or 2,
hence neither -1 nor 0. -/
theorem pkg_is_installed_delegates (X : Env) (pre post : Plisthead) (m pkg : Pkglist)
    (n v1 v2 : String)
    (hpre : ∀ e ∈ pre, ∃ n1, e.name = some n1 ∧ n1 ≠ n)
    (hn : pkg.name = some n) (hm : m.name = some n)
    (hmv : m.version = some v1) (hv : pkg.version = some v2) (hne : v1 ≠ v2) :
    pkg_is_installed X (pre ++ [m] ++ post) pkg =
      Except.ok (X.version_check m.full pkg.full, [Event.version_check m.full pkg.full]) ∧
    ((∀ a b, X.version_check a b = 1 ∨ X.version_check a b = 2) →
      ∃ rc tr, pkg_is_installed X (pre ++ [m] ++ post) pkg = Except.ok (rc, tr) ∧
        (rc = 1 ∨ rc = 2) ∧ rc ≠ -1 ∧ rc ≠ 0) := by
  have hres : pkg_is_installed X (pre ++ [m] ++ post) pkg =
      Except.ok (X.version_check m.full pkg.full,
        [Event.version_check m.full pkg.full]) := by
    rw [List.append_assoc, pkg_is_installed_skip X pre ([m] ++ post) pkg
      (fun e he => by
        obtain ⟨n1, h1, hne1⟩ := hpre e he
        exact ⟨n1, n, h1, hn, hne1⟩)]
    simp [pkg_is_installed, hn, hm, hv, hmv, strcmp_eq_zero_iff, hne]
  refine ⟨hres, fun hvc => ⟨_, _, hres, hvc _ _, ?_, ?_⟩⟩
  · rcases hvc m.full pkg.full with h | h <;> rw [h] <;> decide
  · rcases hvc m.full pkg.full with h | h <;> rw [h] <;> decide

theorem pkg_is_installed_delegates_witness :
    pkg_is_installed sample_env
        ([sample_pkg "bar" "1.0" "a bar"] ++ [sample_pkg "foo" "1.0" "installed"] ++
          [sample_pkg "foo" "2.0" "other"])
        (sample_pkg "foo" "2.0" "a foo") =
      Except.ok (2, [Event.version_check (some "foo-1.0") (some "foo-2.0")]) ∧
    (∃ rc tr, pkg_is_installed sample_env
          ([sample_pkg "bar" "1.0" "a bar"] ++ [sample_pkg "foo" "1.0" "installed"] ++
            [sample_pkg "foo" "2.0" "other"])
          (sample_pkg "foo" "2.0" "a foo") = Except.ok (rc, tr) ∧
        (rc = 1 ∨ rc = 2) ∧ rc ≠ -1 ∧ rc ≠ 0) :=
  have h := pkg_is_installed_delegates sample_env [sample_pkg "bar" "1.0" "a bar"]
    [sample_pkg "foo" "2.0" "other"] (sample_pkg "foo" "1.0" "installed")
    (sample_pkg "foo" "2.0" "a foo") "foo" "1.0" "2.0"
    (by
      intro e he
      simp only [List.mem_singleton] at he
      subst he
      exact ⟨"bar", rfl, by decide⟩)
    rfl rfl rfl rfl (by decide)
  ⟨h.1, h.2 sample_version_check_range⟩

/-- C4: first hit wins.  When no entry of `pre` bears the candidate's name and
`m` does, `pkg_is_installed` on `pre ++ [m] ++ post` gives what it gives on
`[m]`, value and trace, whatever the entries of `post` are. -/
theorem pkg_is_installed_first_hit (X : Env) (pre post : Plisthead) (m pkg : Pkglist)
    (n : String)
    (hpre : ∀ e ∈ pre, ∃ n1, e.name = some n1 ∧ n1 ≠ n)
    (hn : pkg.name = some n) (hm : m.name = some n) :
    pkg_is_installed X (pre ++ [m] ++ post) pkg = pkg_is_installed X [m] pkg := by
  rw [List.append_assoc, pkg_is_installed_skip X pre ([m] ++ post) pkg
    (fun e he => by
      obtain ⟨n1, h1, hne1⟩ := hpre e he
      exact ⟨n1, n, h1, hn, hne1⟩)]
  have hs : strcmp n n = 0 := (strcmp_eq_zero_iff n n).2 rfl
  simp only [List.singleton_append, pkg_is_installed, hn, hm]
  simp only [hs, ne_eq, not_true_eq_false, if_false]

theorem pkg_is_installed_first_hit_witness :
    pkg_is_installed sample_env
        ([sample_pkg "bar" "1.0" "a bar"] ++ [sample_pkg "foo" "1.0" "installed"] ++
          [sample_pkg "foo" "3.0" "other", sample_pkg "foo" "2.0" "same"])
        (sample_pkg "foo" "2.0" "a foo") =
      pkg_is_installed sample_env [sample_pkg "foo" "1.0" "installed"]
        (sample_pkg "foo" "2.0" "a foo") :=
  pkg_is_installed_first_hit sample_env [sample_pkg "bar" "1.0" "a bar"]
    [sample_pkg "foo" "3.0" "other", sample_pkg "foo" "2.0" "same"]
    (sample_pkg "foo" "1.0" "installed") (sample_pkg "foo" "2.0" "a foo") "foo"
    (by
      intro e he
      simp only [List.mem_singleton] at he
      subst he
      exact ⟨"bar", rfl, by decide⟩)
    rfl rfl

/-! ## The listing engine `list_pkgs` -/

theorem setfmt_eq (X : Env) : setfmt X = Except.ok (sfmt_of X, pfmt_of X) := by
  unfold setfmt sfmt_of pfmt_of
  split_ifs <;> rfl

theorem snprintf_sfmt (X : Env) (full : String) (status : Char) :
    snprintf X.BUFSIZ (sfmt_of X) [Arg.str (some full), Arg.chr status] =
      Except.ok (outpkg X full status) := by
  unfold sfmt_of outpkg snprintf
  split_ifs with h
  · simp [vformat, convert, pad, Except.map]
  · simp [vformat, convert, pad, Except.map]

/-- On comparable entries the resolver returns, and its trace holds nothing
but comparator calls. -/
theorem pkg_is_installed_ok (X : Env) (l : Plisthead) (pkg : Pkglist)
    (hl : ∀ e ∈ l, comparable e = true) (hp : comparable pkg = true) :
    ∃ rc tr, pkg_is_installed X l pkg = Except.ok (rc, tr) ∧
      stdout tr = [] ∧ stderr tr = [] ∧ queries tr = [] ∧ resolved tr = [] := by
  induction l with
  | nil => exact ⟨-1, [], rfl, rfl, rfl, rfl, rfl⟩
  | cons e es ih =>
    have he := hl e (List.mem_cons_self _ _)
    simp only [comparable, Bool.and_eq_true, Option.isSome_iff_exists] at he hp
    obtain ⟨⟨n1, hn1⟩, ⟨v1, hv1⟩⟩ := he
    obtain ⟨⟨n2, hn2⟩, ⟨v2, hv2⟩⟩ := hp
    simp only [pkg_is_installed, hn1, hn2, hv1, hv2]
    by_cases hs : strcmp n1 n2 ≠ 0
    · rw [if_pos hs]
      exact ih (fun e' he' => hl e' (List.mem_cons_of_mem _ he'))
    · rw [if_neg hs]
      by_cases hv : strcmp v1 v2 = 0
      · rw [if_pos hv]
        exact ⟨0, [], rfl, rfl, rfl, rfl, rfl⟩
      · rw [if_neg hv]
        exact ⟨_, _, rfl, rfl, rfl, rfl, rfl⟩

theorem list_pkgstatus_eq (s : Char) (rc : Int) :
    list_pkgstatus s rc =
      if (s = '=' ∧ rc = 0) ∨ (s = '>' ∧ rc = 1) ∨ (s = '<' ∧ rc = 2) then s else '\x00' := by
  unfold list_pkgstatus PKG_EQUAL PKG_GREATER PKG_LESSER
  by_cases h1 : s = '='
  · subst h1
    by_cases h : rc = 0 <;> simp [h]
  · by_cases h2 : s = '>'
    · subst h2
      by_cases h : rc = 1 <;> simp [h]
    · by_cases h3 : s = '<'
      · subst h3
        by_cases h : rc = 2 <;> simp [h]
      · simp [h1, h2, h3]




theorem stdout_append (a b : List Event) : stdout (a ++ b) = stdout a ++ stdout b := by
  induction a with
  | nil => rfl
  | cons e es ih => cases e <;> simp [stdout, ih]

theorem stderr_append (a b : List Event) : stderr (a ++ b) = stderr a ++ stderr b := by
  induction a with
  | nil => rfl
  | cons e es ih => cases e <;> simp [stderr, ih]

theorem queries_append (a b : List Event) : queries (a ++ b) = queries a ++ queries b := by
  induction a with
  | nil => rfl
  | cons e es ih => cases e <;> simp [queries, ih]

theorem resolved_append (a b : List Event) : resolved (a ++ b) = resolved a ++ resolved b := by
  induction a with
  | nil => rfl
  | cons e es ih => cases e <;> simp [resolved, ih]

theorem list_pkgs_loop_ok (X : Env) (l r : Plisthead)
    (hl : ∀ e ∈ l, comparable e = true) (hr : ∀ e ∈ r, populated e = true) :
    ∃ tr, list_pkgs_loop X (sfmt_of X) (pfmt_of X) l r = Except.ok ((), tr) ∧
      stdout tr = (r.filter (list_selected X l)).map (list_line X) ∧
      stderr tr = [] ∧ queries tr = [] ∧ resolved tr = r := by
  induction r with
  | nil => exact ⟨[], rfl, rfl, rfl, rfl, rfl⟩
  | cons e es ih =>
    obtain ⟨tr2, h2, ho2, he2, hq2, hr2⟩ := ih (fun e' he' => hr e' (List.mem_cons_of_mem _ he'))
    have hpe := hr e (List.mem_cons_self _ _)
    simp only [populated, Bool.and_eq_true] at hpe
    obtain ⟨hfull, hcmp⟩ := hpe
    obtain ⟨full, hfull⟩ := Option.isSome_iff_exists.1 hfull
    obtain ⟨rc, tr1, h1, ho1, he1, hq1, hr1⟩ := pkg_is_installed_ok X l e hl hcmp
    have hsel : list_selected X l e =
        decide ((X.lslimit = '=' ∧ rc = 0) ∨ (X.lslimit = '>' ∧ rc = 1) ∨
          (X.lslimit = '<' ∧ rc = 2)) := by
      simp [list_selected, resolves_to, h1, Bool.decide_or, Bool.decide_and, Bool.or_assoc]
    simp only [list_pkgs_loop, h1, h2, list_pkgstatus_eq]
    by_cases hc : (X.lslimit = '=' ∧ rc = 0) ∨ (X.lslimit = '>' ∧ rc = 1) ∨
        (X.lslimit = '<' ∧ rc = 2)
    · have hne : X.lslimit ≠ '\x00' := by
        rcases hc with h | h | h <;> rw [h.1] <;> decide
      rw [if_pos hc, if_pos hne, hfull, snprintf_sfmt]
      refine ⟨_, rfl, ?_, ?_, ?_, ?_⟩
      · simp [stdout, stdout_append, ho1, ho2, List.filter_cons, hsel, hc, list_line, hfull]
      · simp [stderr, stderr_append, he1, he2]
      · simp [queries, queries_append, hq1, hq2]
      · simp [resolved, resolved_append, hr1, hr2]
    · rw [if_neg hc]
      simp only [ne_eq, not_true_eq_false, if_false]
      refine ⟨_, rfl, ?_, ?_, ?_, ?_⟩
      · simp [stdout, stdout_append, ho1, ho2, List.filter_cons, hsel, hc]
      · simp [stderr, stderr_append, he1, he2]
      · simp [queries, queries_append, hq1, hq2]
      · simp [resolved, resolved_append, hr1, hr2]



/-- C9: in a status-filtered listing of the local list with an empty local
catalog, whatever the remote catalog, the trace of `list_pkgs` is the single
`fprintf(stderr, MSG_EMPTY_LOCAL_PKGLIST)`: nothing is printed, no entry is
handed to `pkg_is_installed`, no query is run and `version_check` is not
called. -/
theorem list_pkgs_empty_local (X : Env) (r_plisthead : Plisthead) (pkgquery : String)
    (lstype : Int) (hty : lstype = X.PKG_LLIST_CMD) (hset : X.lslimit ≠ '\x00') :
    ∃ tr, list_pkgs X [] r_plisthead pkgquery lstype = Except.ok ((), tr) ∧
      tr = [Event.fprintf_stderr X.MSG_EMPTY_LOCAL_PKGLIST []] ∧
      stderr tr = [(X.MSG_EMPTY_LOCAL_PKGLIST, [])] ∧ stdout tr = [] ∧
      resolved tr = [] ∧ queries tr = [] ∧ version_checks tr = [] := by
  refine ⟨[Event.fprintf_stderr X.MSG_EMPTY_LOCAL_PKGLIST []], ?_, rfl, rfl, rfl, rfl, rfl, rfl⟩
  unfold list_pkgs
  rw [setfmt_eq]
  simp only [hty, hset, ne_eq, not_false_eq_true, and_self, if_true]

theorem list_pkgs_empty_local_witness :
    ∃ tr, list_pkgs sample_env []
        [sample_pkg "foo" "1.0" "a foo", sample_pkg "bar" "2.0" "a bar"]
        "SELECT * FROM LOCAL_PKG;" 7 = Except.ok ((), tr) ∧
      tr = [Event.fprintf_stderr "Local package list is empty.\n" []] ∧
      stderr tr = [("Local package list is empty.\n", [])] ∧ stdout tr = [] ∧
      resolved tr = [] ∧ queries tr = [] ∧ version_checks tr = [] :=
  list_pkgs_empty_local sample_env
    [sample_pkg "foo" "1.0" "a foo", sample_pkg "bar" "2.0" "a bar"]
    "SELECT * FROM LOCAL_PKG;" 7 rfl (by decide)

/-- An entry the resolver reports as not installed is not selected by any
filter symbol. -/
theorem not_selected_of_not_installed (X : Env) (l : Plisthead) (e : Pkglist)
    (h : resolves_to X l e (-1) = true) : list_selected X l e = false := by
  unfold resolves_to at h
  unfold list_selected resolves_to
  split at h
  · rename_i rc tr heq
    have hrc : rc = -1 := of_decide_eq_true h
    subst hrc
    simp
  · exact absurd h (by decide)

/-- C10: in a status-filtered listing of the local list over a non-empty local
catalog of comparable entries and a remote catalog of populated entries,
`list_pkgs` returns and prints exactly, in remote-catalog order, the entries
`e` with filter `=` and resolver result 0, or filter `>` and result 1, or
filter `<` and result 2; an entry resolving to -1 is not among them, and a
filter symbol other than these three prints nothing. -/
theorem list_pkgs_status_filtered (X : Env) (l_plisthead r_plisthead : Plisthead)
    (pkgquery : String) (lstype : Int)
    (hty : lstype = X.PKG_LLIST_CMD) (hset : X.lslimit ≠ '\x00')
    (hne : l_plisthead ≠ [])
    (hl : ∀ e ∈ l_plisthead, comparable e = true)
    (hr : ∀ e ∈ r_plisthead, populated e = true) :
    ∃ tr, list_pkgs X l_plisthead r_plisthead pkgquery lstype = Except.ok ((), tr) ∧
      stdout tr = (r_plisthead.filter (list_selected X l_plisthead)).map (list_line X) ∧
      (∀ e ∈ r_plisthead, resolves_to X l_plisthead e (-1) = true →
        e ∉ r_plisthead.filter (list_selected X l_plisthead)) ∧
      (X.lslimit ≠ '=' → X.lslimit ≠ '>' → X.lslimit ≠ '<' → stdout tr = []) := by
  obtain ⟨tr, htr, hout, _, _, _⟩ := list_pkgs_loop_ok X l_plisthead r_plisthead hl hr
  have hlist : list_pkgs X l_plisthead r_plisthead pkgquery lstype = Except.ok ((), tr) := by
    unfold list_pkgs
    rw [setfmt_eq]
    simp only [hty, hset, ne_eq, not_false_eq_true, and_self, if_true, hne, if_false]
    by_cases hrn : r_plisthead = []
    · subst hrn
      simp only [not_true_eq_false, if_false]
      simp only [list_pkgs_loop] at htr
      exact htr
    · simp only [hrn, not_false_eq_true, if_true]
      exact htr
  refine ⟨tr, hlist, hout, ?_, ?_⟩
  · intro e _ hres hmem
    have hsel := (List.mem_filter.1 hmem).2
    rw [not_selected_of_not_installed X l_plisthead e hres] at hsel
    exact absurd hsel (by decide)
  · intro h1 h2 h3
    rw [hout]
    have hnone : ∀ e, list_selected X l_plisthead e = false := by
      intro e
      simp [list_selected, h1, h2, h3]
    simp [hnone]

theorem list_pkgs_status_filtered_witness :
    ∃ tr, list_pkgs sample_env
        [sample_pkg "bar" "1.0" "installed bar", sample_pkg "foo" "1.0" "installed foo"]
        [sample_pkg "bar" "1.0" "a bar", sample_pkg "baz" "1.0" "a baz",
          sample_pkg "foo" "1.0" "a foo", sample_pkg "foo" "2.0" "a newer foo"]
        "SELECT * FROM LOCAL_PKG;" 7 = Except.ok ((), tr) ∧
      stdout tr = [("%s;%s\n", [Arg.str (some "bar-1.0;="), Arg.str (some "a bar")]),
        ("%s;%s\n", [Arg.str (some "foo-1.0;="), Arg.str (some "a foo")])] ∧
      (∀ e ∈ [sample_pkg "bar" "1.0" "a bar", sample_pkg "baz" "1.0" "a baz",
          sample_pkg "foo" "1.0" "a foo", sample_pkg "foo" "2.0" "a newer foo"],
        resolves_to sample_env
          [sample_pkg "bar" "1.0" "installed bar", sample_pkg "foo" "1.0" "installed foo"]
          e (-1) = true →
        e ∉ [sample_pkg "bar" "1.0" "a bar", sample_pkg "foo" "1.0" "a foo"]) ∧
      (sample_env.lslimit ≠ '=' → sample_env.lslimit ≠ '>' → sample_env.lslimit ≠ '<' →
        stdout tr = []) :=
  list_pkgs_status_filtered sample_env
    [sample_pkg "bar" "1.0" "installed bar", sample_pkg "foo" "1.0" "installed foo"]
    [sample_pkg "bar" "1.0" "a bar", sample_pkg "baz" "1.0" "a baz",
      sample_pkg "foo" "1.0" "a foo", sample_pkg "foo" "2.0" "a newer foo"]
    "SELECT * FROM LOCAL_PKG;" 7 rfl (by decide) (by simp)
    (by
      intro e he
      simp only [List.mem_cons, List.mem_singleton, List.not_mem_nil, or_false] at he
      rcases he with rfl | rfl <;> rfl)
    (by
      intro e he
      simp only [List.mem_cons, List.mem_singleton, List.not_mem_nil, or_false] at he
      rcases he with rfl | rfl | rfl | rfl <;> rfl)


/-- The trace of `rec_pkglist` writes to neither stream. -/
theorem rec_pkglist_silent (X : Env) (fmt : String) (ap : List Arg)
    (res : Option Plistnumbered) (tr0 : List Event)
    (h : rec_pkglist X fmt ap = Except.ok (res, tr0)) :
    stdout tr0 = [] ∧ stderr tr0 = [] := by
  unfold rec_pkglist at h
  split at h
  · exact absurd h (by simp)
  · dsimp only at h
    split_ifs at h <;>
      · simp only [Except.ok.injEq, Prod.mk.injEq] at h
        rw [← h.2]
        exact ⟨rfl, rfl⟩

/-- C8, amended: in a full listing (no status filter), when population of the
supplied query fails, `list_pkgs` emits exactly one `MSG_EMPTY_LIST` message on
the error stream and writes nothing to the standard output; when population
succeeds with zero rows, it writes nothing to the standard output and emits
no message on the error stream. -/
theorem list_pkgs_full_listing_empty (X : Env) (l_plisthead r_plisthead : Plisthead)
    (pkgquery : String) (lstype : Int) (res : Option Plistnumbered) (tr0 : List Event)
    (hfull : ¬ (lstype = X.PKG_LLIST_CMD ∧ X.lslimit ≠ '\x00'))
    (hpop : rec_pkglist X pkgquery [] = Except.ok (res, tr0))
    (hzero : ∀ plist, res = some plist → plist.P_Plisthead = []) :
    ∃ tr, list_pkgs X l_plisthead r_plisthead pkgquery lstype = Except.ok ((), tr) ∧
      stdout tr = [] ∧
      stderr tr = (match res with
        | none => [(X.MSG_EMPTY_LIST, [])]
        | some _ => []) := by
  obtain ⟨ho, he⟩ := rec_pkglist_silent X pkgquery [] res tr0 hpop
  unfold list_pkgs
  rw [setfmt_eq]
  simp only [hfull, if_false, hpop]
  cases res with
  | none =>
    exact ⟨_, rfl, by simp [stdout_append, ho, stdout], by simp [stderr_append, he, stderr]⟩
  | some plist =>
    have hz := hzero plist rfl
    exact ⟨_, rfl, by simp [stdout_append, ho, hz, stdout], by simp [stderr_append, he, hz, stderr]⟩

theorem list_pkgs_full_listing_empty_witness :
    (∃ tr, list_pkgs sample_env_failing [] [] "SELECT * FROM REMOTE_PKG;" 0 =
        Except.ok ((), tr) ∧
      stdout tr = [] ∧ stderr tr = [("Requested list is empty.\n", [])]) ∧
    (∃ tr, list_pkgs sample_env [] [] "SELECT * FROM REMOTE_PKG;" 0 = Except.ok ((), tr) ∧
      stdout tr = [] ∧ stderr tr = []) :=
  ⟨list_pkgs_full_listing_empty sample_env_failing [] [] "SELECT * FROM REMOTE_PKG;" 0
      none [Event.pkgindb_doquery "SELECT * FROM REMOTE_PKG;"] (by decide) rfl
      (by intro plist h; exact absurd h (by simp)),
    list_pkgs_full_listing_empty sample_env [] [] "SELECT * FROM REMOTE_PKG;" 0
      (some { P_Plisthead := [], P_count := 0, P_type := 0 })
      [Event.pkgindb_doquery "SELECT * FROM REMOTE_PKG;"] (by decide) rfl
      (by
        intro plist h
        simp only [Option.some.injEq] at h
        rw [← h])⟩

/-- C8 as stated fails: with an executor that succeeds and delivers no row,
population yields a catalog with no entry and count 0, and the full listing
ends with nothing on the error stream, not with the `MSG_EMPTY_LIST` message. -/
theorem list_pkgs_full_listing_zero_rows_silent :
    rec_pkglist sample_env "SELECT * FROM REMOTE_PKG;" [] =
      Except.ok (some { P_Plisthead := [], P_count := 0, P_type := 0 },
        [Event.pkgindb_doquery "SELECT * FROM REMOTE_PKG;"]) ∧
    list_pkgs sample_env [] [] "SELECT * FROM REMOTE_PKG;" 0 =
      Except.ok ((), [Event.pkgindb_doquery "SELECT * FROM REMOTE_PKG;"]) ∧
    stderr [Event.pkgindb_doquery "SELECT * FROM REMOTE_PKG;"] = [] ∧
    ¬ (∃ tr, list_pkgs sample_env [] [] "SELECT * FROM REMOTE_PKG;" 0 = Except.ok ((), tr) ∧
        stderr tr = [(sample_env.MSG_EMPTY_LIST, [])] ∧ stdout tr = []) := by
  have hrun : list_pkgs sample_env [] [] "SELECT * FROM REMOTE_PKG;" 0 =
      Except.ok ((), [Event.pkgindb_doquery "SELECT * FROM REMOTE_PKG;"]) := rfl
  refine ⟨rfl, hrun, rfl, ?_⟩
  rintro ⟨tr, htr, herr, _⟩
  rw [hrun] at htr
  simp only [Except.ok.injEq, Prod.mk.injEq, true_and] at htr
  rw [← htr] at herr
  exact absurd herr (by simp [stderr])

/-! ## The search engine `search_pkg` -/

/-- The trace of a resolver run that returns holds nothing but comparator
calls. -/
theorem pkg_is_installed_trace (X : Env) (l : Plisthead) (pkg : Pkglist) (rc : Int)
    (tr : List Event) (h : pkg_is_installed X l pkg = Except.ok (rc, tr)) :
    stdout tr = [] ∧ stderr tr = [] ∧ queries tr = [] ∧ resolved tr = [] := by
  induction l with
  | nil =>
    simp only [pkg_is_installed, Except.ok.injEq, Prod.mk.injEq] at h
    rw [← h.2]
    exact ⟨rfl, rfl, rfl, rfl⟩
  | cons e es ih =>
    unfold pkg_is_installed at h
    split at h
    · split_ifs at h with hs
      · exact ih h
      · split at h
        · split_ifs at h <;>
            · simp only [Except.ok.injEq, Prod.mk.injEq] at h
              rw [← h.2]
              exact ⟨rfl, rfl, rfl, rfl⟩
        · exact absurd h (by simp)
    · exact absurd h (by simp)

/-- When the condition of the scan is evaluated without a stop, its value
says whether the pattern matches the name, the full identifier or the
comment. -/
theorem search_match_sound (re : String → Int) (e : Pkglist) (b : Bool)
    (h : search_match re e = Except.ok b) : pattern_matches re e = b := by
  unfold search_match regexec at h
  unfold pattern_matches regex_matches
  cases hn : e.name with
  | none => rw [hn] at h; exact absurd h (by simp)
  | some name =>
    rw [hn] at h
    simp only at h
    by_cases h1 : re name = 0
    · simp only [h1, if_true, Except.ok.injEq] at h
      simp [h1, ← h]
    · simp only [h1, if_false] at h
      cases hf : e.full with
      | none => rw [hf] at h; exact absurd h (by simp)
      | some full =>
        rw [hf] at h
        simp only at h
        by_cases h2 : re full = 0
        · simp only [h2, if_true, Except.ok.injEq] at h
          simp [h1, h2, ← h]
        · simp only [h2, if_false] at h
          cases hc : e.comment with
          | none => rw [hc] at h; exact absurd h (by simp)
          | some comment =>
            rw [hc] at h
            simp only [Except.ok.injEq] at h
            simp [h1, h2, ← h]

/-- The record captured for a matching entry is the one described by
`search_record_of`. -/
theorem search_record_sound (X : Env) (l : Plisthead) (e : Pkglist) (rc : Int)
    (tr : List Event) (p : pkg_sort)
    (hrc : pkg_is_installed X l e = Except.ok (rc, tr))
    (h : search_record e (search_is_inst rc) = Except.ok p) :
    p = search_record_of X l e := by
  unfold search_record xstrdup at h
  cases hf : e.full <;> cases hn : e.name <;> cases hv : e.version <;>
    cases hc : e.comment <;> rw [hf, hn, hv, hc] at h <;>
    simp only [Except.ok.injEq, reduceCtorEq] at h
  rw [← h]
  simp [search_record_of, hf, hn, hv, hc, hrc]

/-- A scan of `search_pkg` that ends without a stop has appended to `psort`
the records of the matching entries, in catalog order, and has set `matched`
when there is one; it has written nothing. -/
theorem search_scan_sound (X : Env) (re : String → Int) (l r : Plisthead)
    (matched : Int) (psort : List pkg_sort) (res : Int × List pkg_sort) (tr : List Event)
    (h : search_scan X re l r matched psort = Except.ok (res, tr)) :
    res = (if r.filter (pattern_matches re) = [] then matched else 1,
        psort ++ (r.filter (pattern_matches re)).map (search_record_of X l)) ∧
      stdout tr = [] ∧ stderr tr = [] ∧ queries tr = [] ∧
      resolved tr = r.filter (pattern_matches re) := by
  induction r generalizing matched psort res tr with
  | nil =>
    simp only [search_scan, Except.ok.injEq, Prod.mk.injEq] at h
    rw [← h.1, ← h.2]
    exact ⟨by simp, rfl, rfl, rfl, rfl⟩
  | cons e es ih =>
    unfold search_scan at h
    cases hsm : search_match re e with
    | error err => rw [hsm] at h; exact absurd h (by simp)
    | ok b =>
      have hb := search_match_sound re e b hsm
      rw [hsm] at h
      cases b with
      | false =>
        simp only at h
        obtain ⟨h1, h2, h3, h4, h5⟩ := ih matched psort res tr h
        exact ⟨by simp [List.filter_cons, hb, h1], h2, h3, h4,
          by simp [List.filter_cons, hb, h5]⟩
      | true =>
        simp only at h
        cases hpi : pkg_is_installed X l e with
        | error err => rw [hpi] at h; exact absurd h (by simp)
        | ok v =>
          obtain ⟨rc, tr1⟩ := v
          rw [hpi] at h
          simp only at h
          cases hrec : search_record e (search_is_inst rc) with
          | error err => rw [hrec] at h; exact absurd h (by simp)
          | ok p =>
            rw [hrec] at h
            simp only at h
            cases hrest : search_scan X re l es 1 (psort ++ [p]) with
            | error err => rw [hrest] at h; exact absurd h (by simp)
            | ok w =>
              obtain ⟨res2, tr2⟩ := w
              rw [hrest] at h
              simp only [Except.ok.injEq, Prod.mk.injEq] at h
              obtain ⟨h1, h2, h3, h4, h5⟩ := ih 1 (psort ++ [p]) res2 tr2 hrest
              obtain ⟨g1, g2, g3, g4⟩ := pkg_is_installed_trace X l e rc tr1 hpi
              have hp := search_record_sound X l e rc tr1 p hpi hrec
              rw [← h.1, ← h.2, h1, hp]
              refine ⟨?_, ?_, ?_, ?_, ?_⟩
              · simp [List.filter_cons, hb]
              · simp [stdout, stdout_append, g1, h2]
              · simp [stderr, stderr_append, g2, h3]
              · simp [queries, queries_append, g3, h4]
              · simp [resolved, resolved_append, g4, h5, List.filter_cons, hb]

theorem search_match_eq (re : String → Int) (e : Pkglist) (h : searchable e = true) :
    search_match re e = Except.ok (pattern_matches re e) := by
  simp only [searchable, populated, comparable, Bool.and_eq_true, Option.isSome_iff_exists] at h
  obtain ⟨⟨⟨full, hf⟩, ⟨name, hn⟩, _⟩, ⟨comment, hc⟩⟩ := h
  simp only [search_match, pattern_matches, regex_matches, regexec, hf, hn, hc]
  by_cases h1 : re name = 0
  · simp [h1]
  · by_cases h2 : re full = 0
    · simp [h1, h2]
    · simp [h1, h2]

theorem search_record_eq (X : Env) (l : Plisthead) (e : Pkglist) (rc : Int) (tr : List Event)
    (h : searchable e = true) (hrc : pkg_is_installed X l e = Except.ok (rc, tr)) :
    search_record e (search_is_inst rc) = Except.ok (search_record_of X l e) := by
  simp only [searchable, populated, comparable, Bool.and_eq_true, Option.isSome_iff_exists] at h
  obtain ⟨⟨⟨full, hf⟩, ⟨name, hn⟩, ⟨version, hv⟩⟩, ⟨comment, hc⟩⟩ := h
  simp [search_record, search_record_of, xstrdup, hf, hn, hv, hc, hrc]

theorem comparable_of_searchable (e : Pkglist) (h : searchable e = true) :
    comparable e = true := by
  simp only [searchable, populated, Bool.and_eq_true] at h
  exact h.1.2

/-- On a local catalog of comparable entries and a remote catalog of
searchable entries the scan of `search_pkg` ends without a stop. -/
theorem search_scan_returns (X : Env) (re : String → Int) (l r : Plisthead)
    (hl : ∀ e ∈ l, comparable e = true) (hr : ∀ e ∈ r, searchable e = true)
    (matched : Int) (psort : List pkg_sort) :
    ∃ res tr, search_scan X re l r matched psort = Except.ok (res, tr) := by
  induction r generalizing matched psort with
  | nil => exact ⟨_, _, rfl⟩
  | cons e es ih =>
    have hse := hr e (List.mem_cons_self _ _)
    have hes : ∀ e1 ∈ es, searchable e1 = true := fun e1 he1 => hr e1 (List.mem_cons_of_mem _ he1)
    simp only [search_scan, search_match_eq re e hse]
    by_cases hm : pattern_matches re e = true
    · obtain ⟨rc, tr1, h1, _⟩ := pkg_is_installed_ok X l e hl (comparable_of_searchable e hse)
      obtain ⟨res2, tr2, h2⟩ := ih hes 1 (psort ++ [search_record_of X l e])
      simp only [hm, h1, search_record_eq X l e rc tr1 hse h1, h2]
      exact ⟨_, _, rfl⟩
    · have hm1 : pattern_matches re e = false := by simpa using hm
      obtain ⟨res2, tr2, h2⟩ := ih hes matched psort
      simp only [hm1, h2]
      exact ⟨_, _, rfl⟩

/-- The rendering loop of `search_pkg` never stops: it prints one line for
each record, in order. -/
theorem search_render_ok (X : Env) (ps : List pkg_sort) :
    ∃ tr, search_render X (sfmt_of X) (pfmt_of X) ps = Except.ok ((), tr) ∧
      stdout tr = ps.map (search_line X) ∧ stderr tr = [] ∧ queries tr = [] ∧
      resolved tr = [] := by
  induction ps with
  | nil => exact ⟨[], rfl, rfl, rfl, rfl, rfl⟩
  | cons p ps ih =>
    obtain ⟨tr, h, ho, he, hq, hr⟩ := ih
    simp only [search_render, snprintf_sfmt, h]
    exact ⟨_, rfl, by simp [stdout, ho, search_line], by simp [stderr, he],
      by simp [queries, hq], by simp [resolved, hr]⟩

/-- On a pattern that compiles, a local catalog of comparable entries and a
remote catalog of searchable entries, `search_pkg` returns. -/
theorem search_pkg_returns (X : Env) (l r : Plisthead) (pattern : String)
    (re : String → Int) (hre : X.regcomp pattern = Except.ok re)
    (hl : ∀ e ∈ l, comparable e = true) (hr : ∀ e ∈ r, searchable e = true) :
    ∃ status tr, search_pkg X l r pattern = Except.ok (status, tr) := by
  obtain ⟨res, tr1, h1⟩ := search_scan_returns X re l r hl hr 0 []
  obtain ⟨matched, psort⟩ := res
  obtain ⟨tr2, h2, _⟩ := search_render_ok X ((X.qsort (pkg_sort_cmp X) psort).take psort.length)
  unfold search_pkg
  simp only [setfmt_eq, hre, h1, h2]
  split_ifs
  · exact ⟨_, _, rfl⟩
  · exact ⟨_, _, rfl⟩

/-- What a run of `search_pkg` that returns has done, on a pattern that
compiles: the status tells whether an entry matches, the output is the sorted
records followed by the legend or, with no match, the no-results message. -/
theorem search_pkg_sound (X : Env) (l r : Plisthead) (pattern : String) (re : String → Int)
    (hre : X.regcomp pattern = Except.ok re) (status : Int) (tr : List Event)
    (h : search_pkg X l r pattern = Except.ok (status, tr)) :
    status = (if r.filter (pattern_matches re) = [] then EXIT_FAILURE else EXIT_SUCCESS) ∧
      stdout tr = (search_sorted X re l r).map (search_line X) ++
        [if r.filter (pattern_matches re) = [] then
          (X.MSG_NO_SEARCH_RESULTS, [Arg.str (some pattern)])
         else (X.MSG_IS_INSTALLED_CODE, [])] ∧
      stderr tr = [] ∧ queries tr = [] ∧ resolved tr = r.filter (pattern_matches re) := by
  unfold search_pkg at h
  simp only [setfmt_eq, hre] at h
  cases hscan : search_scan X re l r 0 [] with
  | error err => rw [hscan] at h; exact absurd h (by simp)
  | ok v =>
    obtain ⟨res, tr1⟩ := v
    obtain ⟨hres, ho1, he1, hq1, hr1⟩ := search_scan_sound X re l r 0 [] res tr1 hscan
    simp only [List.nil_append] at hres
    rw [hscan, hres] at h
    simp only at h
    obtain ⟨tr2, h2, ho2, he2, hq2, hr2⟩ := search_render_ok X (search_sorted X re l r)
    unfold search_sorted search_psort at h2
    rw [h2] at h
    simp only at h
    by_cases hm : r.filter (pattern_matches re) = []
    · simp only [hm, if_true, ne_eq, not_true_eq_false, if_false, Except.ok.injEq,
        Prod.mk.injEq] at h
      rw [← h.1, ← h.2]
      refine ⟨by simp [hm], ?_, ?_, ?_, ?_⟩
      · simp [stdout_append, ho1, ho2, stdout, search_sorted, search_psort, hm]
      · simp [stderr_append, he1, he2, stderr]
      · simp [queries_append, hq1, hq2, queries]
      · simp [resolved_append, hr1, hr2, resolved, hm]
    · simp only [hm, if_false, ne_eq, one_ne_zero, not_false_eq_true, if_true, Except.ok.injEq,
        Prod.mk.injEq] at h
      rw [← h.1, ← h.2]
      refine ⟨by simp [hm], ?_, ?_, ?_, ?_⟩
      · simp [stdout_append, ho1, ho2, stdout, search_sorted, search_psort, hm]
      · simp [stderr_append, he1, he2, stderr]
      · simp [queries_append, hq1, hq2, queries]
      · simp [resolved_append, hr1, hr2, resolved]

theorem search_line_ne_legend (X : Env) (m : String) (ps : List pkg_sort) :
    (m, ([] : List Arg)) ∉ ps.map (search_line X) := by
  intro h
  obtain ⟨p, _, hp⟩ := List.mem_map.1 h
  simp [search_line] at hp

theorem search_line_ne_no_results (X : Env) (m : String) (a : Arg) (ps : List pkg_sort) :
    (m, [a]) ∉ ps.map (search_line X) := by
  intro h
  obtain ⟨p, _, hp⟩ := List.mem_map.1 h
  simp [search_line] at hp

/-- C7: for a pattern that compiles, `search_pkg` returns on every local
catalog of comparable entries and remote catalog of searchable entries, and a
run that returns gives `EXIT_SUCCESS` exactly when some remote entry matches.
With no match it returns `EXIT_FAILURE` and its whole output is the
`MSG_NO_SEARCH_RESULTS` message for the pattern, with no legend.  With a match
its output is the sorted records followed by the legend
`MSG_IS_INSTALLED_CODE`, which occurs exactly once whatever the number of
records, and the `MSG_NO_SEARCH_RESULTS` message does not occur. -/
theorem search_pkg_exit_status (X : Env) (l_plisthead r_plisthead : Plisthead)
    (pattern : String) (re : String → Int)
    (hre : X.regcomp pattern = Except.ok re) :
    ((∀ e ∈ l_plisthead, comparable e = true) → (∀ e ∈ r_plisthead, searchable e = true) →
      ∃ status tr, search_pkg X l_plisthead r_plisthead pattern = Except.ok (status, tr)) ∧
    (∀ status tr, search_pkg X l_plisthead r_plisthead pattern = Except.ok (status, tr) →
      (status = EXIT_SUCCESS ↔ ∃ e ∈ r_plisthead, pattern_matches re e = true) ∧
      ((∀ e ∈ r_plisthead, pattern_matches re e = false) →
        status = EXIT_FAILURE ∧
        stdout tr = [(X.MSG_NO_SEARCH_RESULTS, [Arg.str (some pattern)])] ∧
        (X.MSG_IS_INSTALLED_CODE, []) ∉ stdout tr) ∧
      ((∃ e ∈ r_plisthead, pattern_matches re e = true) →
        status = EXIT_SUCCESS ∧
        stdout tr = (search_sorted X re l_plisthead r_plisthead).map (search_line X) ++
          [(X.MSG_IS_INSTALLED_CODE, [])] ∧
        (stdout tr).count (X.MSG_IS_INSTALLED_CODE, []) = 1 ∧
        (X.MSG_NO_SEARCH_RESULTS, [Arg.str (some pattern)]) ∉ stdout tr)) := by
  refine ⟨search_pkg_returns X l_plisthead r_plisthead pattern re hre, ?_⟩
  intro status tr htr
  obtain ⟨hst, hout, _, _, _⟩ :=
    search_pkg_sound X l_plisthead r_plisthead pattern re hre status tr htr
  have hiff : r_plisthead.filter (pattern_matches re) = [] ↔
      ∀ e ∈ r_plisthead, pattern_matches re e = false := by
    rw [List.filter_eq_nil_iff]
    constructor
    · intro h e he
      simpa using h e he
    · intro h e he
      simp [h e he]
  refine ⟨?_, ?_, ?_⟩
  · rw [hst]
    by_cases hm : r_plisthead.filter (pattern_matches re) = []
    · rw [if_pos hm]
      constructor
      · intro h
        exact absurd h (by decide)
      · rintro ⟨e, he, hme⟩
        rw [hiff.1 hm e he] at hme
        exact absurd hme (by decide)
    · rw [if_neg hm]
      refine ⟨fun _ => ?_, fun _ => rfl⟩
      by_contra hno
      apply hm
      rw [hiff]
      intro e he
      by_contra hne
      exact hno ⟨e, he, by simpa using hne⟩
  · intro hnone
    have hm := hiff.2 hnone
    rw [hout, hst]
    simp only [hm, if_true, search_sorted, search_psort, List.map_nil, List.length_nil,
      List.take_zero, List.nil_append]
    refine ⟨trivial, trivial, ?_⟩
    simp
  · rintro ⟨e, he, hme⟩
    have hm : ¬ r_plisthead.filter (pattern_matches re) = [] := by
      intro h
      rw [hiff.1 h e he] at hme
      exact absurd hme (by decide)
    rw [hout, hst]
    simp only [hm, if_false]
    refine ⟨trivial, trivial, ?_, ?_⟩
    · rw [List.count_append, List.count_eq_zero_of_not_mem (search_line_ne_legend X _ _)]
      simp
    · intro hmem
      rcases List.mem_append.1 hmem with h | h
      · exact search_line_ne_no_results X _ _ _ h
      · simp at h

theorem search_pkg_exit_status_witness :
    (∃ (status : Int) (tr : List Event),
      search_pkg sample_env [sample_pkg "foo" "1.0" "installed foo"]
        [sample_pkg "foo" "1.0" "a foo tool", sample_pkg "zsh" "5.0" "a shell",
          sample_pkg "foo" "2.0" "a newer foo tool"]
        "foo" = Except.ok (status, tr) ∧
      status = EXIT_SUCCESS ∧
      stdout tr = [("%s;%s\n", [Arg.str (some "foo-2.0;<"), Arg.str (some "a newer foo tool")]),
        ("%s;%s\n", [Arg.str (some "foo-1.0;="), Arg.str (some "a foo tool")]),
        ("=: package is installed and up-to-date\n", [])] ∧
      (stdout tr).count (sample_env.MSG_IS_INSTALLED_CODE, []) = 1 ∧
      (sample_env.MSG_NO_SEARCH_RESULTS, [Arg.str (some "foo")]) ∉ stdout tr) ∧
    (∃ (status : Int) (tr : List Event),
      search_pkg sample_env [sample_pkg "foo" "1.0" "installed foo"]
        [sample_pkg "foo" "1.0" "a foo tool", sample_pkg "zsh" "5.0" "a shell"]
        "emacs" = Except.ok (status, tr) ∧
      status = EXIT_FAILURE ∧
      stdout tr = [("No results found for %s\n", [Arg.str (some "emacs")])] ∧
      (sample_env.MSG_IS_INSTALLED_CODE, []) ∉ stdout tr) := by
  constructor
  · obtain ⟨hret, hsound⟩ :=
      search_pkg_exit_status sample_env [sample_pkg "foo" "1.0" "installed foo"]
        [sample_pkg "foo" "1.0" "a foo tool", sample_pkg "zsh" "5.0" "a shell",
          sample_pkg "foo" "2.0" "a newer foo tool"]
        "foo" (sample_regex "foo") rfl
    obtain ⟨status, tr, hrun⟩ := hret
      (by
        intro e he
        simp only [List.mem_singleton] at he
        subst he
        rfl)
      (by
        intro e he
        simp only [List.mem_cons, List.mem_singleton, List.not_mem_nil, or_false] at he
        rcases he with rfl | rfl | rfl <;> rfl)
    have h := (hsound status tr hrun).2.2
      ⟨sample_pkg "foo" "1.0" "a foo tool", by simp, by decide⟩
    exact ⟨status, tr, hrun, h.1, h.2.1, h.2.2.1, h.2.2.2⟩
  · obtain ⟨hret, hsound⟩ :=
      search_pkg_exit_status sample_env [sample_pkg "foo" "1.0" "installed foo"]
        [sample_pkg "foo" "1.0" "a foo tool", sample_pkg "zsh" "5.0" "a shell"]
        "emacs" (sample_regex "emacs") rfl
    obtain ⟨status, tr, hrun⟩ := hret
      (by
        intro e he
        simp only [List.mem_singleton] at he
        subst he
        rfl)
      (by
        intro e he
        simp only [List.mem_cons, List.mem_singleton, List.not_mem_nil, or_false] at he
        rcases he with rfl | rfl <;> rfl)
    have h := (hsound status tr hrun).2.1 (by
      intro e he
      simp only [List.mem_cons, List.mem_singleton, List.not_mem_nil, or_false] at he
      rcases he with rfl | rfl <;> decide)
    exact ⟨status, tr, hrun, h.1, h.2.1, h.2.2⟩

theorem search_sorted_eq (X : Env) (re : String → Int) (l r : Plisthead)
    (hperm : (X.qsort (pkg_sort_cmp X) (search_psort X re l r)).Perm (search_psort X re l r)) :
    search_sorted X re l r = X.qsort (pkg_sort_cmp X) (search_psort X re l r) := by
  unfold search_sorted
  rw [← hperm.length_eq, List.take_length]

/-- C6: for a pattern that compiles and a `qsort` that permutes the array it
is given, `search_pkg` returns on every local catalog of comparable entries
and remote catalog of searchable entries, and the records a run that returns
has rendered (its output before the closing legend or no-results line) are,
up to order, the records of the remote entries whose name, full identifier or
comment the pattern matches: one record for each such entry, none for the
others. -/
theorem search_pkg_match_set (X : Env) (l_plisthead r_plisthead : Plisthead)
    (pattern : String) (re : String → Int)
    (hre : X.regcomp pattern = Except.ok re)
    (hperm : (X.qsort (pkg_sort_cmp X) (search_psort X re l_plisthead r_plisthead)).Perm
      (search_psort X re l_plisthead r_plisthead)) :
    ((∀ e ∈ l_plisthead, comparable e = true) → (∀ e ∈ r_plisthead, searchable e = true) →
      ∃ status tr, search_pkg X l_plisthead r_plisthead pattern = Except.ok (status, tr)) ∧
    (∀ status tr, search_pkg X l_plisthead r_plisthead pattern = Except.ok (status, tr) →
      ∃ (ps : List pkg_sort) (last : String × List Arg),
        stdout tr = ps.map (search_line X) ++ [last] ∧
        (last = (X.MSG_IS_INSTALLED_CODE, []) ∨
          last = (X.MSG_NO_SEARCH_RESULTS, [Arg.str (some pattern)])) ∧
        ps.Perm ((r_plisthead.filter (pattern_matches re)).map
          (search_record_of X l_plisthead)) ∧
        ps.length = (r_plisthead.filter (pattern_matches re)).length) := by
  refine ⟨search_pkg_returns X l_plisthead r_plisthead pattern re hre, ?_⟩
  intro status tr htr
  obtain ⟨_, hout, _, _, _⟩ :=
    search_pkg_sound X l_plisthead r_plisthead pattern re hre status tr htr
  rw [search_sorted_eq X re l_plisthead r_plisthead hperm] at hout
  refine ⟨_, _, hout, ?_, hperm, ?_⟩
  · by_cases hm : r_plisthead.filter (pattern_matches re) = []
    · right; rw [if_pos hm]
    · left; rw [if_neg hm]
  · rw [hperm.length_eq]
    simp [search_psort]

theorem search_pkg_match_set_witness :
    ∃ (status : Int) (tr : List Event) (ps : List pkg_sort) (last : String × List Arg),
      search_pkg sample_env [sample_pkg "foo" "1.0" "installed foo"]
        [sample_pkg "foo" "1.0" "a foo tool", sample_pkg "zsh" "5.0" "a shell",
          sample_pkg "bar" "1.0" "a bar tool", sample_pkg "tool" "2.0" "a tool of tools"]
        "tool" = Except.ok (status, tr) ∧
      stdout tr = ps.map (search_line sample_env) ++ [last] ∧
      (last = (sample_env.MSG_IS_INSTALLED_CODE, []) ∨
        last = (sample_env.MSG_NO_SEARCH_RESULTS, [Arg.str (some "tool")])) ∧
      ps.Perm
        [{ full := "foo-1.0", name := "foo", version := "1.0", comment := "a foo tool",
           flag := '=' },
         { full := "bar-1.0", name := "bar", version := "1.0", comment := "a bar tool",
           flag := '\x00' },
         { full := "tool-2.0", name := "tool", version := "2.0", comment := "a tool of tools",
           flag := '\x00' }] ∧
      ps.length = 3 := by
  obtain ⟨hret, hsound⟩ :=
    search_pkg_match_set sample_env [sample_pkg "foo" "1.0" "installed foo"]
      [sample_pkg "foo" "1.0" "a foo tool", sample_pkg "zsh" "5.0" "a shell",
        sample_pkg "bar" "1.0" "a bar tool", sample_pkg "tool" "2.0" "a tool of tools"]
      "tool" (sample_regex "tool") rfl (by decide)
  obtain ⟨status, tr, hrun⟩ := hret
    (by
      intro e he
      simp only [List.mem_singleton] at he
      subst he
      rfl)
    (by
      intro e he
      simp only [List.mem_cons, List.mem_singleton, List.not_mem_nil, or_false] at he
      rcases he with rfl | rfl | rfl | rfl <;> rfl)
  obtain ⟨ps, last, h1, h2, h3, h4⟩ := hsound status tr hrun
  exact ⟨status, tr, ps, last, hrun, h1, h2, h3, h4⟩

/-- A pair the comparator does not put in descending order is in the order
names ascending, versions descending, when the dewey comparator is total on
the two versions and its `DEWEY_GT` is the converse of its `DEWEY_LT`. -/
theorem search_order_of_cmp_le (X : Env) (a b : pkg_sort)
    (htotal : a.version ≠ b.version →
      X.dewey_cmp a.version DeweyOp.DEWEY_LT b.version ≠ 0 ∨
      X.dewey_cmp b.version DeweyOp.DEWEY_LT a.version ≠ 0)
    (hconv : X.dewey_cmp b.version DeweyOp.DEWEY_LT a.version ≠ 0 ↔
      X.dewey_cmp a.version DeweyOp.DEWEY_GT b.version ≠ 0)
    (h : pkg_sort_cmp X a b ≤ 0) : search_order X a b := by
  unfold pkg_sort_cmp at h
  unfold search_order
  split_ifs at h with h1 h2 h3 h4
  · exact absurd h (by decide)
  · refine ⟨le_of_lt h2, fun hn => ?_⟩
    have := (strcmp_eq_zero_iff a.name b.name).2 hn
    omega
  · exact absurd h (by decide)
  · exact ⟨by omega, fun _ => Or.inl h4⟩
  · refine ⟨by omega, fun _ => ?_⟩
    by_cases hv : a.version = b.version
    · exact Or.inr hv
    · rcases htotal hv with hlt | hgt
      · exact absurd hlt h3
      · exact Or.inl (hconv.1 hgt)

theorem perm_three {α : Type} (a b c : α) (l : List α) (h : l.Perm [a, b, c]) :
    l = [a, b, c] ∨ l = [a, c, b] ∨ l = [b, a, c] ∨ l = [b, c, a] ∨ l = [c, a, b] ∨
      l = [c, b, a] := by
  have hmem := List.mem_permutations'.2 h
  simp [List.permutations', List.permutations'Aux] at hmem
  tauto


/-- C5: for a pattern that compiles, a dewey comparator that is total on the
versions of the records to sort with `DEWEY_GT` the converse of `DEWEY_LT`,
and a `qsort` that leaves the array a permutation of what it was, in ascending
order under `pkg_sort_cmp`: `search_pkg` returns on every local catalog of
comparable entries and remote catalog of searchable entries, and the output of
a run that returns is, line for line and in this order, the rendering of the
array `search_sorted` followed by the closing line; this array holds, up to
order, the records of the matching remote entries, each with the name and the
version of its entry, and it is sorted by name ascending under `strcmp` and,
for equal names, by version descending.  When the matching entries are
`foo-2.0`, `foo-1.0` and `bar-1.0` in any catalog order and `1.0` is dewey-less
than `2.0`, the output is the lines of `bar-1.0`, `foo-2.0`, `foo-1.0`, in this
order, followed by the legend. -/
theorem search_pkg_sorted (X : Env) (l_plisthead r_plisthead : Plisthead)
    (pattern : String) (re : String → Int)
    (hre : X.regcomp pattern = Except.ok re)
    (htotal : ∀ a ∈ search_psort X re l_plisthead r_plisthead,
      ∀ b ∈ search_psort X re l_plisthead r_plisthead, a.version ≠ b.version →
        X.dewey_cmp a.version DeweyOp.DEWEY_LT b.version ≠ 0 ∨
        X.dewey_cmp b.version DeweyOp.DEWEY_LT a.version ≠ 0)
    (hconv : ∀ a ∈ search_psort X re l_plisthead r_plisthead,
      ∀ b ∈ search_psort X re l_plisthead r_plisthead,
        (X.dewey_cmp a.version DeweyOp.DEWEY_LT b.version ≠ 0 ↔
          X.dewey_cmp b.version DeweyOp.DEWEY_GT a.version ≠ 0))
    (hperm : (X.qsort (pkg_sort_cmp X) (search_psort X re l_plisthead r_plisthead)).Perm
      (search_psort X re l_plisthead r_plisthead))
    (hsorted : (X.qsort (pkg_sort_cmp X) (search_psort X re l_plisthead r_plisthead)).Pairwise
      (fun a b => pkg_sort_cmp X a b ≤ 0)) :
    ((∀ e ∈ l_plisthead, comparable e = true) → (∀ e ∈ r_plisthead, searchable e = true) →
      ∃ status tr, search_pkg X l_plisthead r_plisthead pattern = Except.ok (status, tr)) ∧
    (∀ status tr, search_pkg X l_plisthead r_plisthead pattern = Except.ok (status, tr) →
      stdout tr = (search_sorted X re l_plisthead r_plisthead).map (search_line X) ++
        [if r_plisthead.filter (pattern_matches re) = [] then
          (X.MSG_NO_SEARCH_RESULTS, [Arg.str (some pattern)])
         else (X.MSG_IS_INSTALLED_CODE, [])] ∧
      (search_sorted X re l_plisthead r_plisthead).Perm
        ((r_plisthead.filter (pattern_matches re)).map (search_record_of X l_plisthead)) ∧
      (search_sorted X re l_plisthead r_plisthead).Pairwise (search_order X) ∧
      (∀ c1 c2 c3 : String,
        (r_plisthead.filter (pattern_matches re)).Perm
          [sample_pkg "foo" "2.0" c1, sample_pkg "foo" "1.0" c2,
            sample_pkg "bar" "1.0" c3] →
        X.dewey_cmp "1.0" DeweyOp.DEWEY_LT "2.0" ≠ 0 →
        search_sorted X re l_plisthead r_plisthead =
          [search_record_of X l_plisthead (sample_pkg "bar" "1.0" c3),
            search_record_of X l_plisthead (sample_pkg "foo" "2.0" c1),
            search_record_of X l_plisthead (sample_pkg "foo" "1.0" c2)] ∧
        stdout tr =
          [search_line X (search_record_of X l_plisthead (sample_pkg "bar" "1.0" c3)),
            search_line X (search_record_of X l_plisthead (sample_pkg "foo" "2.0" c1)),
            search_line X (search_record_of X l_plisthead (sample_pkg "foo" "1.0" c2)),
            (X.MSG_IS_INSTALLED_CODE, [])])) := by
  refine ⟨search_pkg_returns X l_plisthead r_plisthead pattern re hre, ?_⟩
  intro status tr htr
  obtain ⟨_, hout, _, _, _⟩ :=
    search_pkg_sound X l_plisthead r_plisthead pattern re hre status tr htr
  have hqs := search_sorted_eq X re l_plisthead r_plisthead hperm
  refine ⟨hout, ?_, ?_, ?_⟩
  · rw [hqs]
    exact hperm
  · rw [hqs]
    refine hsorted.imp_of_mem ?_
    intro a b ha hb hab
    exact search_order_of_cmp_le X a b (htotal a (hperm.subset ha) b (hperm.subset hb))
      (hconv b (hperm.subset hb) a (hperm.subset ha)) hab
  · intro c1 c2 c3 hthree hlt
    have hp : (X.qsort (pkg_sort_cmp X) (search_psort X re l_plisthead r_plisthead)).Perm
        [search_record_of X l_plisthead (sample_pkg "foo" "2.0" c1),
         search_record_of X l_plisthead (sample_pkg "foo" "1.0" c2),
         search_record_of X l_plisthead (sample_pkg "bar" "1.0" c3)] :=
      hperm.trans (hthree.map (search_record_of X l_plisthead))
    have hfb : strcmp "foo" "bar" > 0 := by decide
    have hff : strcmp "foo" "foo" = 0 := by decide
    have h21 : ¬ pkg_sort_cmp X (search_record_of X l_plisthead (sample_pkg "foo" "2.0" c1))
        (search_record_of X l_plisthead (sample_pkg "bar" "1.0" c3)) ≤ 0 := by
      simp [pkg_sort_cmp, search_record_of, sample_pkg, hfb]
    have h11 : ¬ pkg_sort_cmp X (search_record_of X l_plisthead (sample_pkg "foo" "1.0" c2))
        (search_record_of X l_plisthead (sample_pkg "bar" "1.0" c3)) ≤ 0 := by
      simp [pkg_sort_cmp, search_record_of, sample_pkg, hfb]
    have h12 : ¬ pkg_sort_cmp X (search_record_of X l_plisthead (sample_pkg "foo" "1.0" c2))
        (search_record_of X l_plisthead (sample_pkg "foo" "2.0" c1)) ≤ 0 := by
      simp [pkg_sort_cmp, search_record_of, sample_pkg, hff, hlt]
    have hps : X.qsort (pkg_sort_cmp X) (search_psort X re l_plisthead r_plisthead) =
        [search_record_of X l_plisthead (sample_pkg "bar" "1.0" c3),
         search_record_of X l_plisthead (sample_pkg "foo" "2.0" c1),
         search_record_of X l_plisthead (sample_pkg "foo" "1.0" c2)] := by
      rcases perm_three _ _ _ _ hp with h | h | h | h | h | h <;> rw [h] at hsorted ⊢ <;>
        simp only [List.pairwise_cons, List.mem_cons, List.mem_singleton, forall_eq_or_imp,
          forall_eq, List.not_mem_nil, false_implies, implies_true, List.Pairwise.nil,
          and_true] at hsorted <;>
        tauto
    have hne : r_plisthead.filter (pattern_matches re) ≠ [] := by
      intro h0
      rw [h0] at hthree
      exact absurd hthree.length_eq (by simp)
    refine ⟨hqs.trans hps, ?_⟩
    rw [hout, hqs, hps, if_neg hne]
    rfl

theorem search_pkg_sorted_witness :
    ∃ (status : Int) (tr : List Event),
      search_pkg sample_env [sample_pkg "foo" "1.0" "installed foo"]
        [sample_pkg "foo" "1.0" "a foo tool", sample_pkg "zsh" "5.0" "a shell",
          sample_pkg "bar" "1.0" "a bar tool", sample_pkg "foo" "2.0" "a newer foo tool"]
        "tool" = Except.ok (status, tr) ∧
      stdout tr =
        [("%s;%s\n", [Arg.str (some "bar-1.0;"), Arg.str (some "a bar tool")]),
         ("%s;%s\n", [Arg.str (some "foo-2.0;<"), Arg.str (some "a newer foo tool")]),
         ("%s;%s\n", [Arg.str (some "foo-1.0;="), Arg.str (some "a foo tool")]),
         ("=: package is installed and up-to-date\n", [])] ∧
      search_sorted sample_env (sample_regex "tool") [sample_pkg "foo" "1.0" "installed foo"]
        [sample_pkg "foo" "1.0" "a foo tool", sample_pkg "zsh" "5.0" "a shell",
          sample_pkg "bar" "1.0" "a bar tool", sample_pkg "foo" "2.0" "a newer foo tool"] =
        [{ full := "bar-1.0", name := "bar", version := "1.0", comment := "a bar tool",
           flag := '\x00' },
         { full := "foo-2.0", name := "foo", version := "2.0",
           comment := "a newer foo tool", flag := '<' },
         { full := "foo-1.0", name := "foo", version := "1.0", comment := "a foo tool",
           flag := '=' }] ∧
      (search_sorted sample_env (sample_regex "tool") [sample_pkg "foo" "1.0" "installed foo"]
        [sample_pkg "foo" "1.0" "a foo tool", sample_pkg "zsh" "5.0" "a shell",
          sample_pkg "bar" "1.0" "a bar tool",
          sample_pkg "foo" "2.0" "a newer foo tool"]).Pairwise (search_order sample_env) := by
  obtain ⟨hret, hsound⟩ :=
    search_pkg_sorted sample_env [sample_pkg "foo" "1.0" "installed foo"]
      [sample_pkg "foo" "1.0" "a foo tool", sample_pkg "zsh" "5.0" "a shell",
        sample_pkg "bar" "1.0" "a bar tool", sample_pkg "foo" "2.0" "a newer foo tool"]
      "tool" (sample_regex "tool") rfl (by decide) (by decide) (by decide) (by decide)
  obtain ⟨status, tr, hrun⟩ := hret
    (by
      intro e he
      simp only [List.mem_singleton] at he
      subst he
      rfl)
    (by
      intro e he
      simp only [List.mem_cons, List.mem_singleton, List.not_mem_nil, or_false] at he
      rcases he with rfl | rfl | rfl | rfl <;> rfl)
  obtain ⟨_, _, hpw, hex⟩ := hsound status tr hrun
  have h3 := hex "a newer foo tool" "a foo tool" "a bar tool" (by decide) (by decide)
  exact ⟨status, tr, hrun, h3.2, h3.1, hpw⟩

/-! ## Allocation and teardown -/

/-- C14: the entry returned by `malloc_pkglist` has every string member
(`full`, `name`, `version`, `build_date`, `depend`, `pkgurl`, `comment`,
`category`, `pkgpath`, `old`) null, `size_pkg`, `file_size`, `level`, `download`
and `keep` equal to 0, `old_size_pkg` equal to -1 and `action` equal to
`DONOTHING`. -/
theorem malloc_pkglist_init (X : Env) :
    (malloc_pkglist X).full = none ∧ (malloc_pkglist X).name = none ∧
    (malloc_pkglist X).version = none ∧ (malloc_pkglist X).build_date = none ∧
    (malloc_pkglist X).depend = none ∧ (malloc_pkglist X).pkgurl = none ∧
    (malloc_pkglist X).comment = none ∧ (malloc_pkglist X).category = none ∧
    (malloc_pkglist X).pkgpath = none ∧ (malloc_pkglist X).old = none ∧
    (malloc_pkglist X).size_pkg = 0 ∧ (malloc_pkglist X).file_size = 0 ∧
    (malloc_pkglist X).level = 0 ∧ (malloc_pkglist X).download = 0 ∧
    (malloc_pkglist X).keep = 0 ∧ (malloc_pkglist X).old_size_pkg = -1 ∧
    (malloc_pkglist X).action = X.DONOTHING :=
  ⟨rfl, rfl, rfl, rfl, rfl, rfl, rfl, rfl, rfl, rfl, rfl, rfl, rfl, rfl, rfl, rfl, rfl⟩

/-- The loop of `free_global_pkglist` leaves the list empty. -/
theorem free_global_pkglist_empty (plisthead : Plisthead) :
    free_global_pkglist plisthead = [] := by
  induction plisthead with
  | nil => rfl
  | cons e es ih => simpa [free_global_pkglist] using ih

/-- C15: after `free_global_pkglists` both global catalogs are empty and both
entry counters hold the values they held before the call. -/
theorem free_global_pkglists_frame (g : Globals) :
    (free_global_pkglists g).r_plisthead = [] ∧
    (free_global_pkglists g).l_plisthead = [] ∧
    (free_global_pkglists g).r_plistcounter = g.r_plistcounter ∧
    (free_global_pkglists g).l_plistcounter = g.l_plistcounter :=
  ⟨free_global_pkglist_empty g.r_plisthead, free_global_pkglist_empty g.l_plisthead,
    rfl, rfl⟩

/-! ## The category listings -/

/-- C13: for every remote catalog and category argument `show_category`
returns, and the records it prints are exactly, in catalog order, those of
the entries whose category is present and equal to the argument; an entry
with no category is not among them, whatever the argument, the empty string
included. -/
theorem show_category_prints (r_plisthead : Plisthead) (category : String) :
    ∃ tr, show_category r_plisthead (some category) = Except.ok ((), tr) ∧
      stdout tr = (r_plisthead.filter (fun e => decide (e.category = some category))).map
        category_line ∧
      stderr tr = [] ∧
      (∀ e ∈ r_plisthead, e.category = none →
        e ∉ r_plisthead.filter (fun e => decide (e.category = some category))) ∧
      (∀ e : Pkglist, e.category = none →
        show_category [e] (some "") = Except.ok ((), [])) := by
  have hrun : ∃ tr, show_category r_plisthead (some category) = Except.ok ((), tr) ∧
      stdout tr = (r_plisthead.filter (fun e => decide (e.category = some category))).map
        category_line ∧ stderr tr = [] := by
    induction r_plisthead with
    | nil => exact ⟨[], rfl, rfl, rfl⟩
    | cons e es ih =>
      obtain ⟨tr, h, ho, he⟩ := ih
      cases hc : e.category with
      | none =>
        refine ⟨tr, ?_, ?_, he⟩
        · simp only [show_category, hc, h]
        · simp [List.filter_cons, hc, ho]
      | some c =>
        by_cases heq : c = category
        · subst heq
          refine ⟨Event.printf "%-20s %s\n" [Arg.str e.full, Arg.str e.comment] :: tr, ?_, ?_, ?_⟩
          · simp only [show_category, hc, h, (strcmp_eq_zero_iff c c).2 rfl, if_true]
          · simp [stdout, List.filter_cons, hc, ho, category_line]
          · simp [stderr, he]
        · have hs : ¬ strcmp c category = 0 := fun hz => heq ((strcmp_eq_zero_iff c category).1 hz)
          refine ⟨tr, ?_, ?_, he⟩
          · simp only [show_category, hc, h, hs, if_false]
          · simp [List.filter_cons, hc, heq, ho]
  obtain ⟨tr, h, ho, he⟩ := hrun
  refine ⟨tr, h, ho, he, ?_, ?_⟩
  · intro e _ hnone hmem
    have := (List.mem_filter.1 hmem).2
    simp [hnone] at this
  · intro e hnone
    simp only [show_category, hnone]

/-- The loop of `show_pkg_category` over named entries: `matched` is set when
an entry bears the name, and one line is printed for each such entry that has
a category. -/
theorem show_pkg_category_loop_ok (pkgname : String) (r : Plisthead)
    (hr : ∀ e ∈ r, e.name.isSome = true) (matched : Int) :
    ∃ tr, show_pkg_category_loop (some pkgname) r matched =
        Except.ok (if r.filter (fun e => decide (e.name = some pkgname)) = [] then matched
          else 1, tr) ∧
      stdout tr = (r.filter (fun e => decide (e.name = some pkgname))).filterMap
        pkg_category_line ∧
      stderr tr = [] := by
  induction r generalizing matched with
  | nil => exact ⟨[], rfl, rfl, rfl⟩
  | cons e es ih =>
    have hes : ∀ e1 ∈ es, e1.name.isSome = true := fun e1 h1 => hr e1 (List.mem_cons_of_mem _ h1)
    obtain ⟨n, hn⟩ := Option.isSome_iff_exists.1 (hr e (List.mem_cons_self _ _))
    by_cases heq : n = pkgname
    · subst heq
      have hs : strcmp n n = 0 := (strcmp_eq_zero_iff n n).2 rfl
      obtain ⟨tr, h, ho, he⟩ := ih hes 1
      cases hc : e.category with
      | none =>
        refine ⟨tr, ?_, ?_, he⟩
        · simp only [show_pkg_category_loop, hn, hs, if_true, hc, h]
          simp [List.filter_cons, hn]
        · simp [List.filter_cons, hn, pkg_category_line, hc, ho]
      | some c =>
        refine ⟨Event.printf "%-12s - %s\n" [Arg.str (some c), Arg.str e.full] :: tr, ?_, ?_, ?_⟩
        · simp only [show_pkg_category_loop, hn, hs, if_true, hc, h]
          simp [List.filter_cons, hn]
        · simp [stdout, List.filter_cons, hn, pkg_category_line, hc, ho]
        · simp [stderr, he]
    · have hs : ¬ strcmp n pkgname = 0 := fun hz => heq ((strcmp_eq_zero_iff n pkgname).1 hz)
      obtain ⟨tr, h, ho, he⟩ := ih hes matched
      refine ⟨tr, ?_, ?_, he⟩
      · simp only [show_pkg_category_loop, hn, hs, if_false, h]
        simp [List.filter_cons, hn, heq]
      · simp [List.filter_cons, hn, heq, ho]

/-- C12: over a remote catalog whose entries have a name, `show_pkg_category`
returns `EXIT_SUCCESS` exactly when some entry bears the name asked for.  It
prints, in catalog order, one line for each entry bearing the name that has a
category and none for those without, so when every such entry lacks a
category nothing is printed; when an entry bears the name nothing goes to the
error stream, and when none does the status is `EXIT_FAILURE`, nothing is
printed and the `MSG_PKG_NOT_AVAIL` diagnostic for the name is emitted. -/
theorem show_pkg_category_status (X : Env) (r_plisthead : Plisthead) (pkgname : String)
    (hr : ∀ e ∈ r_plisthead, e.name.isSome = true) :
    ∃ status tr, show_pkg_category X r_plisthead (some pkgname) = Except.ok (status, tr) ∧
      (status = EXIT_SUCCESS ↔ ∃ e ∈ r_plisthead, e.name = some pkgname) ∧
      stdout tr = (r_plisthead.filter (fun e => decide (e.name = some pkgname))).filterMap
        pkg_category_line ∧
      ((∃ e ∈ r_plisthead, e.name = some pkgname) → stderr tr = []) ∧
      ((∃ e ∈ r_plisthead, e.name = some pkgname) →
        (∀ e ∈ r_plisthead, e.name = some pkgname → e.category = none) →
        status = EXIT_SUCCESS ∧ stdout tr = []) ∧
      ((∀ e ∈ r_plisthead, e.name ≠ some pkgname) →
        status = EXIT_FAILURE ∧ stdout tr = [] ∧
        stderr tr = [(X.MSG_PKG_NOT_AVAIL, [Arg.str (some pkgname)])]) := by
  obtain ⟨tr, h, ho, he⟩ := show_pkg_category_loop_ok pkgname r_plisthead hr 0
  have hiff : r_plisthead.filter (fun e => decide (e.name = some pkgname)) = [] ↔
      ∀ e ∈ r_plisthead, e.name ≠ some pkgname := by
    rw [List.filter_eq_nil_iff]
    constructor
    · intro hh e hmem; simpa using hh e hmem
    · intro hh e hmem; simpa using hh e hmem
  by_cases hm : r_plisthead.filter (fun e => decide (e.name = some pkgname)) = []
  · have hnone := hiff.1 hm
    refine ⟨EXIT_FAILURE, tr ++ [Event.fprintf_stderr X.MSG_PKG_NOT_AVAIL
      [Arg.str (some pkgname)]], ?_, ?_, ?_, ?_, ?_, ?_⟩
    · simp only [show_pkg_category, h, hm, if_true, ne_eq, not_true_eq_false, if_false]
    · constructor
      · intro hc; exact absurd hc (by decide)
      · rintro ⟨e, hmem, hne⟩; exact absurd hne (hnone e hmem)
    · simp [stdout_append, ho, stdout, hm]
    · rintro ⟨e, hmem, hne⟩; exact absurd hne (hnone e hmem)
    · rintro ⟨e, hmem, hne⟩; exact absurd hne (hnone e hmem)
    · intro _
      refine ⟨rfl, ?_, ?_⟩
      · simp [stdout_append, ho, stdout, hm]
      · simp [stderr_append, he, stderr]
  · have hsome : ∃ e ∈ r_plisthead, e.name = some pkgname := by
      by_contra hno
      apply hm
      rw [hiff]
      intro e hmem hne
      exact hno ⟨e, hmem, hne⟩
    refine ⟨EXIT_SUCCESS, tr, ?_, ?_, ho, fun _ => he, ?_, ?_⟩
    · simp only [show_pkg_category, h, hm, if_false, ne_eq, one_ne_zero, not_false_eq_true,
        if_true]
    · exact ⟨fun _ => hsome, fun _ => rfl⟩
    · intro _ hall
      refine ⟨rfl, ?_⟩
      rw [ho]
      apply List.filterMap_eq_nil_iff.2
      intro e hmem
      have hf := List.mem_filter.1 hmem
      have hname : e.name = some pkgname := by simpa using hf.2
      simp [pkg_category_line, hall e hf.1 hname]
    · intro hnone
      obtain ⟨e, hmem, hne⟩ := hsome
      exact absurd hne (hnone e hmem)

theorem show_pkg_category_status_witness :
    (∃ (status : Int) (tr : List Event),
      show_pkg_category sample_env
        [sample_pkg_in "foo" "1.0" "a foo" (some "devel"),
          sample_pkg_in "bar" "1.0" "a bar" none,
          sample_pkg_in "foo" "1.0" "a foo" (some "net")]
        (some "foo") = Except.ok (status, tr) ∧
      status = EXIT_SUCCESS ∧
      stdout tr = [("%-12s - %s\n", [Arg.str (some "devel"), Arg.str (some "foo-1.0")]),
        ("%-12s - %s\n", [Arg.str (some "net"), Arg.str (some "foo-1.0")])] ∧
      stderr tr = []) ∧
    (∃ (status : Int) (tr : List Event),
      show_pkg_category sample_env
        [sample_pkg_in "foo" "1.0" "a foo" (some "devel"),
          sample_pkg_in "bar" "1.0" "a bar" none]
        (some "bar") = Except.ok (status, tr) ∧
      status = EXIT_SUCCESS ∧ stdout tr = [] ∧ stderr tr = []) ∧
    (∃ (status : Int) (tr : List Event),
      show_pkg_category sample_env
        [sample_pkg_in "foo" "1.0" "a foo" (some "devel"),
          sample_pkg_in "bar" "1.0" "a bar" none]
        (some "zsh") = Except.ok (status, tr) ∧
      status = EXIT_FAILURE ∧ stdout tr = [] ∧
      stderr tr = [("%s is not available in the repository\n", [Arg.str (some "zsh")])]) := by
  refine ⟨?_, ?_, ?_⟩
  · obtain ⟨status, tr, hrun, hiff, hout, herr, _, _⟩ :=
      show_pkg_category_status sample_env
        [sample_pkg_in "foo" "1.0" "a foo" (some "devel"),
          sample_pkg_in "bar" "1.0" "a bar" none,
          sample_pkg_in "foo" "1.0" "a foo" (some "net")] "foo"
        (by
          intro e he
          simp only [List.mem_cons, List.mem_singleton, List.not_mem_nil, or_false] at he
          rcases he with rfl | rfl | rfl <;> rfl)
    have hex : ∃ e ∈ [sample_pkg_in "foo" "1.0" "a foo" (some "devel"),
        sample_pkg_in "bar" "1.0" "a bar" none,
        sample_pkg_in "foo" "1.0" "a foo" (some "net")], e.name = some "foo" :=
      ⟨sample_pkg_in "foo" "1.0" "a foo" (some "devel"), by simp, rfl⟩
    exact ⟨status, tr, hrun, hiff.2 hex, hout, herr hex⟩
  · obtain ⟨status, tr, hrun, _, _, herr, hnocat, _⟩ :=
      show_pkg_category_status sample_env
        [sample_pkg_in "foo" "1.0" "a foo" (some "devel"),
          sample_pkg_in "bar" "1.0" "a bar" none] "bar"
        (by
          intro e he
          simp only [List.mem_cons, List.mem_singleton, List.not_mem_nil, or_false] at he
          rcases he with rfl | rfl <;> rfl)
    have hex : ∃ e ∈ [sample_pkg_in "foo" "1.0" "a foo" (some "devel"),
        sample_pkg_in "bar" "1.0" "a bar" none], e.name = some "bar" :=
      ⟨sample_pkg_in "bar" "1.0" "a bar" none, by simp, rfl⟩
    have h := hnocat hex (by
      intro e he hname
      simp only [List.mem_cons, List.mem_singleton, List.not_mem_nil, or_false] at he
      rcases he with rfl | rfl
      · exact absurd hname (by decide)
      · rfl)
    exact ⟨status, tr, hrun, h.1, h.2, herr hex⟩
  · obtain ⟨status, tr, hrun, _, _, _, _, hfail⟩ :=
      show_pkg_category_status sample_env
        [sample_pkg_in "foo" "1.0" "a foo" (some "devel"),
          sample_pkg_in "bar" "1.0" "a bar" none] "zsh"
        (by
          intro e he
          simp only [List.mem_cons, List.mem_singleton, List.not_mem_nil, or_false] at he
          rcases he with rfl | rfl <;> rfl)
    have h := hfail (by
      intro e he
      simp only [List.mem_cons, List.mem_singleton, List.not_mem_nil, or_false] at he
      rcases he with rfl | rfl <;> decide)
    exact ⟨status, tr, hrun, h.1, h.2.1, h.2.2⟩

/-! ## Population `rec_pkglist` -/

theorem deliver_eq (rows : List Pkglist) (plist : Plistnumbered) :
    deliver rows plist =
      { plist with P_Plisthead := plist.P_Plisthead ++ rows,
                   P_count := plist.P_count + rows.length } := by
  induction rows generalizing plist with
  | nil => simp [deliver]
  | cons row rows ih =>
    have h := ih (pdb_rec_list plist row)
    simp only [deliver, List.foldl_cons] at h ⊢
    rw [h]
    simp only [pdb_rec_list, List.append_assoc, List.singleton_append, List.length_cons,
      Nat.cast_add, Nat.cast_one]
    congr 1
    omega

/-- C11: when the formatted query is `query`, `rec_pkglist` runs the executor
once on it, from the empty catalog with count 0.  If the executor does not
report `PDB_OK` the result is `NULL`; if it reports `PDB_OK` the result is the
numbered list the executor left, untouched, which is never `NULL`.  So when
the executor has delivered the rows `rows`, the catalog holds `rows` in result
order with count their number, and for no row it is the empty catalog with
count 0. -/
theorem rec_pkglist_outcomes (X : Env) (fmt : String) (ap : List Arg) (query : String)
    (hq : vsnprintf X.BUFSIZ fmt ap = Except.ok query) :
    ((X.pkgindb_doquery query { P_Plisthead := [], P_count := 0, P_type := 0 }).1 ≠ X.PDB_OK →
      rec_pkglist X fmt ap = Except.ok (none, [Event.pkgindb_doquery query])) ∧
    ((X.pkgindb_doquery query { P_Plisthead := [], P_count := 0, P_type := 0 }).1 = X.PDB_OK →
      rec_pkglist X fmt ap =
        Except.ok (some (X.pkgindb_doquery query
          { P_Plisthead := [], P_count := 0, P_type := 0 }).2,
          [Event.pkgindb_doquery query]) ∧
      (∀ rows : List Pkglist,
        (X.pkgindb_doquery query { P_Plisthead := [], P_count := 0, P_type := 0 }).2 =
          deliver rows { P_Plisthead := [], P_count := 0, P_type := 0 } →
        rec_pkglist X fmt ap =
          Except.ok (some { P_Plisthead := rows, P_count := rows.length, P_type := 0 },
            [Event.pkgindb_doquery query])) ∧
      ((X.pkgindb_doquery query { P_Plisthead := [], P_count := 0, P_type := 0 }).2 =
          deliver [] { P_Plisthead := [], P_count := 0, P_type := 0 } →
        rec_pkglist X fmt ap =
          Except.ok (some { P_Plisthead := [], P_count := 0, P_type := 0 },
            [Event.pkgindb_doquery query]) ∧
        rec_pkglist X fmt ap ≠ Except.ok (none, [Event.pkgindb_doquery query]))) := by
  constructor
  · intro hfail
    simp only [rec_pkglist, hq, init_head, hfail, if_false]
  · intro hok
    have hres : rec_pkglist X fmt ap =
        Except.ok (some (X.pkgindb_doquery query
          { P_Plisthead := [], P_count := 0, P_type := 0 }).2,
          [Event.pkgindb_doquery query]) := by
      simp only [rec_pkglist, hq, init_head, hok, if_true]
    refine ⟨hres, ?_, ?_⟩
    · intro rows hrows
      rw [hres, hrows, deliver_eq]
      simp
    · intro hrows
      rw [hres, hrows]
      refine ⟨rfl, ?_⟩
      simp

theorem rec_pkglist_outcomes_witness :
    rec_pkglist sample_env_failing "SELECT * FROM REMOTE_PKG;" [] =
      Except.ok (none, [Event.pkgindb_doquery "SELECT * FROM REMOTE_PKG;"]) ∧
    rec_pkglist sample_env "SELECT * FROM REMOTE_PKG;" [] =
      Except.ok (some { P_Plisthead := [], P_count := 0, P_type := 0 },
        [Event.pkgindb_doquery "SELECT * FROM REMOTE_PKG;"]) ∧
    rec_pkglist sample_env "SELECT * FROM REMOTE_PKG;" [] ≠
      Except.ok (none, [Event.pkgindb_doquery "SELECT * FROM REMOTE_PKG;"]) ∧
    rec_pkglist sample_env_rows "SELECT * FROM REMOTE_PKG;" [] =
      Except.ok (some { P_Plisthead := [sample_pkg "bar" "1.0" "a bar",
          sample_pkg "foo" "2.0" "a foo"], P_count := 2, P_type := 0 },
        [Event.pkgindb_doquery "SELECT * FROM REMOTE_PKG;"]) :=
  ⟨(rec_pkglist_outcomes sample_env_failing "SELECT * FROM REMOTE_PKG;" []
      "SELECT * FROM REMOTE_PKG;" rfl).1 (by decide),
    (((rec_pkglist_outcomes sample_env "SELECT * FROM REMOTE_PKG;" []
      "SELECT * FROM REMOTE_PKG;" rfl).2 rfl).2.2 rfl).1,
    (((rec_pkglist_outcomes sample_env "SELECT * FROM REMOTE_PKG;" []
      "SELECT * FROM REMOTE_PKG;" rfl).2 rfl).2.2 rfl).2,
    ((rec_pkglist_outcomes sample_env_rows "SELECT * FROM REMOTE_PKG;" []
      "SELECT * FROM REMOTE_PKG;" rfl).2 rfl).2.1
      [sample_pkg "bar" "1.0" "a bar", sample_pkg "foo" "2.0" "a foo"] rfl⟩

/-! ## The comparator `pkg_sort_cmp` -/

theorem strcmpAux_swap (a b : List Char) : strcmpAux b a = - strcmpAux a b := by
  induction a generalizing b with
  | nil => cases b <;> simp [strcmpAux]
  | cons x xs ih =>
    cases b with
    | nil => simp [strcmpAux]
    | cons y ys =>
      simp only [strcmpAux]
      by_cases h1 : x.toNat < y.toNat
      · have h2 : ¬ y.toNat < x.toNat := by omega
        simp [h1, h2]
      · by_cases h2 : y.toNat < x.toNat
        · simp [h1, h2]
        · simp [h1, h2, ih ys]

/-- Swapping the arguments of `strcmp` changes the sign of the result. -/
theorem strcmp_swap (s1 s2 : String) : strcmp s2 s1 = - strcmp s1 s2 :=
  strcmpAux_swap s1.data s2.data

/-- C18: when the dewey comparator reports `v` less than `w` exactly when it
reports `w` greater than `v`, and never reports a pair both less and greater,
`pkg_sort_cmp` is a consistent three-way comparator: `cmp(b, a) = -cmp(a, b)`,
`cmp(a, a) = 0`, and `cmp(a, b) = 0` exactly when the names are equal and the
version of `a` is neither dewey-less nor dewey-greater than that of `b`. -/
theorem pkg_sort_cmp_consistent (X : Env)
    (hconv : ∀ v w : String, X.dewey_cmp v DeweyOp.DEWEY_LT w ≠ 0 ↔
      X.dewey_cmp w DeweyOp.DEWEY_GT v ≠ 0)
    (hexcl : ∀ v w : String, ¬ (X.dewey_cmp v DeweyOp.DEWEY_LT w ≠ 0 ∧
      X.dewey_cmp v DeweyOp.DEWEY_GT w ≠ 0))
    (a b : pkg_sort) :
    pkg_sort_cmp X a b = - pkg_sort_cmp X b a ∧
    pkg_sort_cmp X a a = 0 ∧
    (pkg_sort_cmp X a b = 0 ↔
      a.name = b.name ∧ X.dewey_cmp a.version DeweyOp.DEWEY_LT b.version = 0 ∧
        X.dewey_cmp a.version DeweyOp.DEWEY_GT b.version = 0) := by
  have hself : ∀ v : String, X.dewey_cmp v DeweyOp.DEWEY_LT v = 0 ∧
      X.dewey_cmp v DeweyOp.DEWEY_GT v = 0 := by
    intro v
    have hlt : X.dewey_cmp v DeweyOp.DEWEY_LT v = 0 := by
      by_contra h
      exact hexcl v v ⟨h, (hconv v v).1 h⟩
    refine ⟨hlt, ?_⟩
    by_contra h
    exact ((hconv v v).2 h) hlt
  refine ⟨?_, ?_, ?_⟩
  · have hsw := strcmp_swap a.name b.name
    unfold pkg_sort_cmp
    by_cases h1 : strcmp a.name b.name > 0
    · have h2 : ¬ strcmp b.name a.name > 0 := by omega
      have h3 : strcmp b.name a.name < 0 := by omega
      simp [h1, h2, h3]
    · by_cases h2 : strcmp a.name b.name < 0
      · have h3 : strcmp b.name a.name > 0 := by omega
        simp [h1, h2, h3]
      · have h3 : ¬ strcmp b.name a.name > 0 := by omega
        have h4 : ¬ strcmp b.name a.name < 0 := by omega
        simp only [h1, h2, h3, h4, if_false]
        by_cases hlt : X.dewey_cmp a.version DeweyOp.DEWEY_LT b.version ≠ 0
        · have hgt : ¬ X.dewey_cmp a.version DeweyOp.DEWEY_GT b.version ≠ 0 :=
            fun hg => hexcl _ _ ⟨hlt, hg⟩
          have hblt : ¬ X.dewey_cmp b.version DeweyOp.DEWEY_LT a.version ≠ 0 :=
            fun hh => hgt ((hconv _ _).1 hh)
          have hbgt : X.dewey_cmp b.version DeweyOp.DEWEY_GT a.version ≠ 0 :=
            (hconv _ _).1 hlt
          simp [hlt, hblt, hbgt]
        · by_cases hgt : X.dewey_cmp a.version DeweyOp.DEWEY_GT b.version ≠ 0
          · have hblt : X.dewey_cmp b.version DeweyOp.DEWEY_LT a.version ≠ 0 :=
              (hconv _ _).2 hgt
            simp [hlt, hgt, hblt]
          · have hblt : ¬ X.dewey_cmp b.version DeweyOp.DEWEY_LT a.version ≠ 0 :=
              fun hh => hgt ((hconv _ _).1 hh)
            have hbgt : ¬ X.dewey_cmp b.version DeweyOp.DEWEY_GT a.version ≠ 0 :=
              fun hh => hlt ((hconv _ _).2 hh)
            simp [hlt, hgt, hblt, hbgt]
  · have h0 : strcmp a.name a.name = 0 := (strcmp_eq_zero_iff _ _).2 rfl
    unfold pkg_sort_cmp
    simp [h0, (hself a.version).1, (hself a.version).2]
  · unfold pkg_sort_cmp
    by_cases h1 : strcmp a.name b.name > 0
    · have hne : a.name ≠ b.name := fun h => by
        have := (strcmp_eq_zero_iff _ _).2 h
        omega
      simp [h1, hne]
    · by_cases h2 : strcmp a.name b.name < 0
      · have hne : a.name ≠ b.name := fun h => by
          have := (strcmp_eq_zero_iff _ _).2 h
          omega
        simp [h1, h2, hne]
      · have heq : a.name = b.name := (strcmp_eq_zero_iff _ _).1 (by omega)
        simp only [h1, h2, if_false]
        by_cases hlt : X.dewey_cmp a.version DeweyOp.DEWEY_LT b.version = 0
        · by_cases hgt : X.dewey_cmp a.version DeweyOp.DEWEY_GT b.version = 0
          · simp [hlt, hgt, heq]
          · simp [hlt, hgt]
        · simp [hlt]

theorem sample_dewey_converse (v w : String) :
    sample_env.dewey_cmp v DeweyOp.DEWEY_LT w ≠ 0 ↔
      sample_env.dewey_cmp w DeweyOp.DEWEY_GT v ≠ 0 := by
  have hsw := strcmp_swap v w
  simp only [sample_env]
  by_cases h : strcmp v w < 0
  · have h2 : strcmp w v > 0 := by omega
    simp [h, h2]
  · have h2 : ¬ strcmp w v > 0 := by omega
    simp [h, h2]

theorem sample_dewey_exclusive (v w : String) :
    ¬ (sample_env.dewey_cmp v DeweyOp.DEWEY_LT w ≠ 0 ∧
      sample_env.dewey_cmp v DeweyOp.DEWEY_GT w ≠ 0) := by
  simp only [sample_env]
  by_cases h : strcmp v w < 0
  · have h2 : ¬ strcmp v w > 0 := by omega
    simp [h, h2]
  · simp [h]

theorem pkg_sort_cmp_consistent_witness :
    pkg_sort_cmp sample_env
        { full := "foo-2.0", name := "foo", version := "2.0", comment := "a", flag := '=' }
        { full := "foo-1.0", name := "foo", version := "1.0", comment := "b", flag := '<' } =
      - pkg_sort_cmp sample_env
        { full := "foo-1.0", name := "foo", version := "1.0", comment := "b", flag := '<' }
        { full := "foo-2.0", name := "foo", version := "2.0", comment := "a", flag := '=' } ∧
    pkg_sort_cmp sample_env
        { full := "foo-2.0", name := "foo", version := "2.0", comment := "a", flag := '=' }
        { full := "foo-2.0", name := "foo", version := "2.0", comment := "a", flag := '=' } = 0 ∧
    (pkg_sort_cmp sample_env
        { full := "foo-2.0", name := "foo", version := "2.0", comment := "a", flag := '=' }
        { full := "foo-1.0", name := "foo", version := "1.0", comment := "b", flag := '<' } = 0 ↔
      "foo" = "foo" ∧ sample_env.dewey_cmp "2.0" DeweyOp.DEWEY_LT "1.0" = 0 ∧
        sample_env.dewey_cmp "2.0" DeweyOp.DEWEY_GT "1.0" = 0) :=
  pkg_sort_cmp_consistent sample_env sample_dewey_converse sample_dewey_exclusive
    { full := "foo-2.0", name := "foo", version := "2.0", comment := "a", flag := '=' }
    { full := "foo-1.0", name := "foo", version := "1.0", comment := "b", flag := '<' }

/-! ## Absent comments in `search_pkg` -/

theorem searchable_of_populated (e : Pkglist) (hp : populated e = true)
    (hc : e.comment.isSome = true) : searchable e = true := by
  simp [searchable, hp, hc]

/-- On a remote catalog of populated entries one of which has no comment, the
scan of `search_pkg` stops on a `NULL` dereference. -/
theorem search_scan_stops (X : Env) (re : String → Int) (l r : Plisthead)
    (hl : ∀ e ∈ l, comparable e = true) (hr : ∀ e ∈ r, populated e = true)
    (hnone : ∃ e ∈ r, e.comment = none) (matched : Int) (psort : List pkg_sort) :
    search_scan X re l r matched psort = Except.error Stop.null_deref := by
  induction r generalizing matched psort with
  | nil =>
    obtain ⟨e, he, _⟩ := hnone
    exact absurd he (List.not_mem_nil e)
  | cons e es ih =>
    have hpe := hr e (List.mem_cons_self _ _)
    have hes : ∀ e1 ∈ es, populated e1 = true := fun e1 h1 => hr e1 (List.mem_cons_of_mem _ h1)
    have hcmp : comparable e = true := by
      simp only [populated, Bool.and_eq_true] at hpe
      exact hpe.2
    obtain ⟨rc, tr1, hpi, _⟩ := pkg_is_installed_ok X l e hl hcmp
    cases hc : e.comment with
    | none =>
      simp only [populated, comparable, Bool.and_eq_true, Option.isSome_iff_exists] at hpe
      obtain ⟨⟨full, hf⟩, ⟨name, hn⟩, ⟨version, hv⟩⟩ := hpe
      unfold search_scan
      by_cases h1 : re name = 0
      · simp [search_match, regexec, hn, h1, hpi, search_record, xstrdup, hf, hv, hc]
      · by_cases h2 : re full = 0
        · simp [search_match, regexec, hn, hf, h1, h2, hpi, search_record, xstrdup, hv, hc]
        · simp [search_match, regexec, hn, hf, hc, h1, h2]
    | some c =>
      have hse : searchable e = true := searchable_of_populated e hpe (by simp [hc])
      have htail : ∃ e1 ∈ es, e1.comment = none := by
        obtain ⟨e1, h1, h2⟩ := hnone
        rcases List.mem_cons.1 h1 with h | h
        · subst h
          rw [hc] at h2
          exact absurd h2 (by simp)
        · exact ⟨e1, h, h2⟩
      unfold search_scan
      rw [search_match_eq re e hse]
      by_cases hm : pattern_matches re e = true
      · simp only [hm, hpi, search_record_eq X l e rc tr1 hse hpi,
          ih hes htail 1 (psort ++ [search_record_of X l e])]
      · have hm1 : pattern_matches re e = false := by simpa using hm
        simp only [hm1]
        exact ih hes htail matched psort

/-- C19, amended: for a pattern that compiles, a local catalog of comparable
entries and a remote catalog whose entries have name, full identifier and
version present, `search_pkg` returns when every remote entry also has its
comment present, the entries handed to the resolver being exactly those the
pattern matches on name, full identifier or comment; when some remote entry
has no comment, the run stops on a `NULL` dereference. -/
theorem search_pkg_total_iff_commented (X : Env) (l_plisthead r_plisthead : Plisthead)
    (pattern : String) (re : String → Int)
    (hre : X.regcomp pattern = Except.ok re)
    (hl : ∀ e ∈ l_plisthead, comparable e = true)
    (hr : ∀ e ∈ r_plisthead, populated e = true) :
    ((∀ e ∈ r_plisthead, e.comment.isSome = true) →
      ∃ status tr, search_pkg X l_plisthead r_plisthead pattern = Except.ok (status, tr) ∧
        resolved tr = r_plisthead.filter (pattern_matches re)) ∧
    ((∃ e ∈ r_plisthead, e.comment = none) →
      search_pkg X l_plisthead r_plisthead pattern = Except.error Stop.null_deref) := by
  constructor
  · intro hc
    obtain ⟨status, tr, h⟩ := search_pkg_returns X l_plisthead r_plisthead pattern re hre hl
      (fun e he => searchable_of_populated e (hr e he) (hc e he))
    exact ⟨status, tr, h,
      (search_pkg_sound X l_plisthead r_plisthead pattern re hre status tr h).2.2.2.2⟩
  · intro hnone
    unfold search_pkg
    simp only [setfmt_eq, hre, search_scan_stops X re l_plisthead r_plisthead hl hr hnone 0 []]

theorem search_pkg_total_iff_commented_witness :
    (∃ (status : Int) (tr : List Event),
      search_pkg sample_env [sample_pkg "foo" "1.0" "installed foo"]
        [sample_pkg "foo" "1.0" "a foo tool", sample_pkg "zsh" "5.0" "a shell"]
        "foo" = Except.ok (status, tr) ∧
      resolved tr = [sample_pkg "foo" "1.0" "a foo tool"]) ∧
    search_pkg sample_env [sample_pkg "foo" "1.0" "installed foo"]
      [sample_pkg "foo" "1.0" "a foo tool",
        { sample_pkg "zsh" "5.0" "a shell" with comment := none }]
      "foo" = Except.error Stop.null_deref :=
  ⟨(search_pkg_total_iff_commented sample_env [sample_pkg "foo" "1.0" "installed foo"]
      [sample_pkg "foo" "1.0" "a foo tool", sample_pkg "zsh" "5.0" "a shell"]
      "foo" (sample_regex "foo") rfl
      (by
        intro e he
        simp only [List.mem_singleton] at he
        subst he
        rfl)
      (by
        intro e he
        simp only [List.mem_cons, List.mem_singleton, List.not_mem_nil, or_false] at he
        rcases he with rfl | rfl <;> rfl)).1
      (by
        intro e he
        simp only [List.mem_cons, List.mem_singleton, List.not_mem_nil, or_false] at he
        rcases he with rfl | rfl <;> rfl),
    (search_pkg_total_iff_commented sample_env [sample_pkg "foo" "1.0" "installed foo"]
      [sample_pkg "foo" "1.0" "a foo tool",
        { sample_pkg "zsh" "5.0" "a shell" with comment := none }]
      "foo" (sample_regex "foo") rfl
      (by
        intro e he
        simp only [List.mem_singleton] at he
        subst he
        rfl)
      (by
        intro e he
        simp only [List.mem_cons, List.mem_singleton, List.not_mem_nil, or_false] at he
        rcases he with rfl | rfl <;> rfl)).2
      ⟨{ sample_pkg "zsh" "5.0" "a shell" with comment := none }, by simp, rfl⟩⟩

/-- C19 as stated fails: an entry with name, full identifier and version
present and no comment stops the search on a `NULL` dereference, both when the
pattern matches its name (the comment is handed to `xstrdup`) and when it
matches neither its name nor its full identifier (the comment is handed to
`regexec`); no run returns and no entry is matched. -/
theorem search_pkg_absent_comment_stops :
    populated { sample_pkg "foo" "1.0" "a foo" with comment := none } = true ∧
    sample_env.regcomp "foo" = Except.ok (sample_regex "foo") ∧
    sample_env.regcomp "zsh" = Except.ok (sample_regex "zsh") ∧
    search_pkg sample_env [] [{ sample_pkg "foo" "1.0" "a foo" with comment := none }] "foo" =
      Except.error Stop.null_deref ∧
    search_pkg sample_env [] [{ sample_pkg "foo" "1.0" "a foo" with comment := none }] "zsh" =
      Except.error Stop.null_deref ∧
    ¬ (∃ status tr,
      search_pkg sample_env [] [{ sample_pkg "foo" "1.0" "a foo" with comment := none }]
        "foo" = Except.ok (status, tr)) := by
  refine ⟨rfl, rfl, rfl, rfl, rfl, ?_⟩
  rintro ⟨status, tr, h⟩
  have hstop : search_pkg sample_env []
      [{ sample_pkg "foo" "1.0" "a foo" with comment := none }] "foo" =
      Except.error Stop.null_deref := rfl
  rw [hstop] at h
  exact absurd h (by simp)

/-! ## The status symbol of `search_pkg` -/

/-- In a scan of `search_pkg` that ends without a stop, for every matching
entry the resolver has returned and the entry's full identifier and comment
are present. -/
theorem search_scan_reads (X : Env) (re : String → Int) (l r : Plisthead)
    (matched : Int) (psort : List pkg_sort) (res : Int × List pkg_sort) (tr : List Event)
    (h : search_scan X re l r matched psort = Except.ok (res, tr)) :
    ∀ e ∈ r.filter (pattern_matches re), ∃ rc tr1 full comment,
      pkg_is_installed X l e = Except.ok (rc, tr1) ∧ e.full = some full ∧
      e.comment = some comment := by
  induction r generalizing matched psort res tr with
  | nil => intro e he; exact absurd he (List.not_mem_nil e)
  | cons e es ih =>
    unfold search_scan at h
    cases hsm : search_match re e with
    | error err => rw [hsm] at h; exact absurd h (by simp)
    | ok b =>
      have hb := search_match_sound re e b hsm
      rw [hsm] at h
      cases b with
      | false =>
        simp only at h
        intro e1 he1
        rw [List.filter_cons, hb] at he1
        exact ih matched psort res tr h e1 he1
      | true =>
        simp only at h
        cases hpi : pkg_is_installed X l e with
        | error err => rw [hpi] at h; exact absurd h (by simp)
        | ok v =>
          obtain ⟨rc, tr1⟩ := v
          rw [hpi] at h
          simp only at h
          cases hrec : search_record e (search_is_inst rc) with
          | error err => rw [hrec] at h; exact absurd h (by simp)
          | ok p =>
            rw [hrec] at h
            simp only at h
            cases hrest : search_scan X re l es 1 (psort ++ [p]) with
            | error err => rw [hrest] at h; exact absurd h (by simp)
            | ok w =>
              obtain ⟨res2, tr2⟩ := w
              intro e1 he1
              rw [List.filter_cons, hb] at he1
              simp only [if_true] at he1
              rcases List.mem_cons.1 he1 with heq | hmem
              · subst heq
                unfold search_record xstrdup at hrec
                cases hf : e1.full <;> cases hn : e1.name <;> cases hv : e1.version <;>
                  cases hc : e1.comment <;> rw [hf, hn, hv, hc] at hrec <;>
                  simp only [Except.ok.injEq, reduceCtorEq] at hrec
                exact ⟨rc, tr1, _, _, hpi, rfl, rfl⟩
              · exact ih 1 (psort ++ [p]) res2 tr2 hrest e1 hmem

/-- C16: for a pattern that compiles and a `qsort` that permutes the array it
is given, `search_pkg` returns on every local catalog of comparable entries
and remote catalog of searchable entries, and in a run that returns the
records rendered are those of the matching remote entries: each rendered
record is that of a matching entry `e` on which the resolver, run against the
local catalog, has returned some `rc`; it keeps the full identifier and the
comment of `e`, and its symbol is `=` for `rc = 0`, `>` for `rc = 1`, `<` for
`rc = 2` and NUL (no symbol) for any other `rc`, -1 included; and every
matching entry has such a record. -/
theorem search_pkg_status_symbol (X : Env) (l_plisthead r_plisthead : Plisthead)
    (pattern : String) (re : String → Int)
    (hre : X.regcomp pattern = Except.ok re)
    (hperm : (X.qsort (pkg_sort_cmp X) (search_psort X re l_plisthead r_plisthead)).Perm
      (search_psort X re l_plisthead r_plisthead)) :
    ((∀ e ∈ l_plisthead, comparable e = true) → (∀ e ∈ r_plisthead, searchable e = true) →
      ∃ status tr, search_pkg X l_plisthead r_plisthead pattern = Except.ok (status, tr)) ∧
    (∀ status tr, search_pkg X l_plisthead r_plisthead pattern = Except.ok (status, tr) →
      ∃ last : String × List Arg,
        stdout tr = (search_sorted X re l_plisthead r_plisthead).map (search_line X) ++ [last] ∧
        (last = (X.MSG_IS_INSTALLED_CODE, []) ∨
          last = (X.MSG_NO_SEARCH_RESULTS, [Arg.str (some pattern)])) ∧
        (∀ p ∈ search_sorted X re l_plisthead r_plisthead,
          ∃ e ∈ r_plisthead, pattern_matches re e = true ∧
          ∃ rc tr1, pkg_is_installed X l_plisthead e = Except.ok (rc, tr1) ∧
            e.full = some p.full ∧ e.comment = some p.comment ∧
            (rc = 0 → p.flag = '=') ∧ (rc = 1 → p.flag = '>') ∧ (rc = 2 → p.flag = '<') ∧
            (rc ≠ 0 → rc ≠ 1 → rc ≠ 2 → p.flag = '\x00') ∧ (rc = -1 → p.flag = '\x00')) ∧
        (∀ e ∈ r_plisthead, pattern_matches re e = true →
          search_record_of X l_plisthead e ∈ search_sorted X re l_plisthead r_plisthead)) := by
  refine ⟨search_pkg_returns X l_plisthead r_plisthead pattern re hre, ?_⟩
  intro status tr htr
  obtain ⟨_, hout, _, _, _⟩ :=
    search_pkg_sound X l_plisthead r_plisthead pattern re hre status tr htr
  have hsorted := search_sorted_eq X re l_plisthead r_plisthead hperm
  have hreads : ∀ e ∈ r_plisthead.filter (pattern_matches re), ∃ rc tr1 full comment,
      pkg_is_installed X l_plisthead e = Except.ok (rc, tr1) ∧ e.full = some full ∧
      e.comment = some comment := by
    unfold search_pkg at htr
    simp only [setfmt_eq, hre] at htr
    cases hscan : search_scan X re l_plisthead r_plisthead 0 [] with
    | error err => rw [hscan] at htr; exact absurd htr (by simp)
    | ok v =>
      obtain ⟨res, tr1⟩ := v
      exact search_scan_reads X re l_plisthead r_plisthead 0 [] res tr1 hscan
  refine ⟨_, hout, ?_, ?_, ?_⟩
  · by_cases hm : r_plisthead.filter (pattern_matches re) = []
    · right; rw [if_pos hm]
    · left; rw [if_neg hm]
  · intro p hp
    rw [hsorted] at hp
    have hp1 := hperm.subset hp
    obtain ⟨e, he, rfl⟩ := List.mem_map.1 hp1
    obtain ⟨rc, tr1, full, comment, hpi, hf, hc⟩ := hreads e he
    have hmem := List.mem_filter.1 he
    refine ⟨e, hmem.1, hmem.2, rc, tr1, hpi, ?_, ?_, ?_, ?_, ?_, ?_, ?_⟩
    · simp [search_record_of, hf]
    · simp [search_record_of, hc]
    · intro h0; simp [search_record_of, hpi, search_is_inst, h0, PKG_EQUAL]
    · intro h1; simp [search_record_of, hpi, search_is_inst, h1, PKG_GREATER]
    · intro h2; simp [search_record_of, hpi, search_is_inst, h2, PKG_LESSER]
    · intro h0 h1 h2; simp [search_record_of, hpi, search_is_inst, h0, h1, h2]
    · intro hm1; simp [search_record_of, hpi, search_is_inst, hm1]
  · intro e he hm
    rw [hsorted]
    apply hperm.symm.subset
    exact List.mem_map.2 ⟨e, List.mem_filter.2 ⟨he, hm⟩, rfl⟩

theorem search_pkg_status_symbol_witness :
    ∃ (status : Int) (tr : List Event),
      search_pkg sample_env
        [sample_pkg "bar" "2.0" "installed bar", sample_pkg "foo" "1.0" "installed foo",
          sample_pkg "qux" "1.0" "installed qux"]
        [sample_pkg "bar" "1.0" "a bar tool", sample_pkg "foo" "1.0" "a foo tool",
          sample_pkg "qux" "2.0" "a qux tool", sample_pkg "zsh" "5.0" "a shell tool"]
        "tool" = Except.ok (status, tr) ∧
      stdout tr =
        [("%s;%s\n", [Arg.str (some "bar-1.0;>"), Arg.str (some "a bar tool")]),
         ("%s;%s\n", [Arg.str (some "foo-1.0;="), Arg.str (some "a foo tool")]),
         ("%s;%s\n", [Arg.str (some "qux-2.0;<"), Arg.str (some "a qux tool")]),
         ("%s;%s\n", [Arg.str (some "zsh-5.0;"), Arg.str (some "a shell tool")]),
         ("=: package is installed and up-to-date\n", [])] ∧
      (∀ p ∈ [({ full := "bar-1.0", name := "bar", version := "1.0",
                 comment := "a bar tool", flag := '>' } : pkg_sort),
              { full := "foo-1.0", name := "foo", version := "1.0",
                comment := "a foo tool", flag := '=' },
              { full := "qux-2.0", name := "qux", version := "2.0",
                comment := "a qux tool", flag := '<' },
              { full := "zsh-5.0", name := "zsh", version := "5.0",
                comment := "a shell tool", flag := '\x00' }],
        ∃ e ∈ [sample_pkg "bar" "1.0" "a bar tool", sample_pkg "foo" "1.0" "a foo tool",
          sample_pkg "qux" "2.0" "a qux tool", sample_pkg "zsh" "5.0" "a shell tool"],
        pattern_matches (sample_regex "tool") e = true ∧
        ∃ rc tr1, pkg_is_installed sample_env
            [sample_pkg "bar" "2.0" "installed bar", sample_pkg "foo" "1.0" "installed foo",
              sample_pkg "qux" "1.0" "installed qux"] e = Except.ok (rc, tr1) ∧
          e.full = some p.full ∧ e.comment = some p.comment ∧
          (rc = 0 → p.flag = '=') ∧ (rc = 1 → p.flag = '>') ∧ (rc = 2 → p.flag = '<') ∧
          (rc ≠ 0 → rc ≠ 1 → rc ≠ 2 → p.flag = '\x00') ∧ (rc = -1 → p.flag = '\x00')) := by
  obtain ⟨hret, hsound⟩ :=
    search_pkg_status_symbol sample_env
      [sample_pkg "bar" "2.0" "installed bar", sample_pkg "foo" "1.0" "installed foo",
        sample_pkg "qux" "1.0" "installed qux"]
      [sample_pkg "bar" "1.0" "a bar tool", sample_pkg "foo" "1.0" "a foo tool",
        sample_pkg "qux" "2.0" "a qux tool", sample_pkg "zsh" "5.0" "a shell tool"]
      "tool" (sample_regex "tool") rfl (by decide)
  obtain ⟨status, tr, hrun⟩ := hret
    (by
      intro e he
      simp only [List.mem_cons, List.mem_singleton, List.not_mem_nil, or_false] at he
      rcases he with rfl | rfl | rfl <;> rfl)
    (by
      intro e he
      simp only [List.mem_cons, List.mem_singleton, List.not_mem_nil, or_false] at he
      rcases he with rfl | rfl | rfl | rfl <;> rfl)
  obtain ⟨last, hout, hlast, hsym, _⟩ := hsound status tr hrun
  have hl : last = ("=: package is installed and up-to-date\n", []) := by
    rcases hlast with h | h
    · exact h
    · exfalso
      have hrun2 := (search_pkg_sound sample_env _ _ "tool" (sample_regex "tool") rfl
        status tr hrun).2.1
      rw [hout] at hrun2
      have := List.append_inj_right' hrun2 rfl
      rw [h] at this
      simp only [List.cons.injEq, and_true] at this
      revert this
      decide
  rw [hl] at hout
  exact ⟨status, tr, hrun, hout, hsym⟩

/-! ## Parsable rendering -/

theorem takeWhile_eq_self_of_not_mem (l : List Char) (h : '\x00' ∉ l) :
    l.takeWhile (fun ch => decide (ch ≠ '\x00')) = l := by
  rw [List.takeWhile_eq_self_iff]
  intro c hc
  have : c ≠ '\x00' := fun hz => h (hz ▸ hc)
  simpa using this

/-- The content of `outpkg` in the parsable format, for an identifier that
fits the buffer and a status character that is not NUL. -/
theorem outpkg_parsable (X : Env) (f : String) (c : Char) (hp : X.pflag ≠ 0)
    (hfit : f.length + 2 < X.BUFSIZ) (hnul : '\x00' ∉ f.data) (hc : c ≠ '\x00') :
    outpkg X f c = f ++ ";" ++ String.singleton c := by
  unfold outpkg
  have hlen : (f.data ++ [';', c]).length ≤ X.BUFSIZ - 1 := by
    simp only [List.length_append, List.length_cons, List.length_nil]
    have : f.data.length = f.length := rfl
    omega
  rw [if_pos hp, List.take_of_length_le hlen, takeWhile_eq_self_of_not_mem]
  · apply String.ext
    simp [String.singleton]
  · intro hmem
    simp only [List.mem_append, List.mem_cons, List.not_mem_nil, or_false] at hmem
    rcases hmem with h | h | h
    · exact hnul h
    · exact absurd h (by decide)
    · exact hc h.symm

/-- The content of `outpkg` in the parsable format when the status character
is NUL: the identifier and the separator. -/
theorem outpkg_parsable_nul (X : Env) (f : String) (hp : X.pflag ≠ 0)
    (hfit : f.length + 2 < X.BUFSIZ) (hnul : '\x00' ∉ f.data) :
    outpkg X f '\x00' = f ++ ";" := by
  unfold outpkg
  have hlen : (f.data ++ [';', '\x00']).length ≤ X.BUFSIZ - 1 := by
    simp only [List.length_append, List.length_cons, List.length_nil]
    have : f.data.length = f.length := rfl
    omega
  rw [if_pos hp, List.take_of_length_le hlen]
  have hsplit : f.data ++ [';', '\x00'] = (f.data ++ [';']) ++ ('\x00' :: []) := by simp
  rw [hsplit, List.takeWhile_append_of_pos]
  · apply String.ext
    simp
  · intro ch hmem
    simp only [List.mem_append, List.mem_singleton] at hmem
    rcases hmem with h | h
    · have : ch ≠ '\x00' := fun hz => hnul (hz ▸ h)
      simpa using this
    · rw [h]; decide

theorem printf_text_parsable (a b : String) :
    printf_text ("%s;%s\n", [Arg.str (some a), Arg.str (some b)]) =
      Except.ok (a ++ ";" ++ b ++ "\n") := by
  simp [printf_text, vformat, convert, pad, Except.map]
  apply String.ext
  simp


/-- A full listing whose population succeeds prints one line for each entry
of the populated catalog, in order. -/
theorem list_pkgs_full_listing_lines (X : Env) (l_plisthead r_plisthead : Plisthead)
    (pkgquery : String) (lstype : Int) (plist : Plistnumbered) (tr0 : List Event)
    (hfull : ¬ (lstype = X.PKG_LLIST_CMD ∧ X.lslimit ≠ '\x00'))
    (hpop : rec_pkglist X pkgquery [] = Except.ok (some plist, tr0)) :
    ∃ tr, list_pkgs X l_plisthead r_plisthead pkgquery lstype = Except.ok ((), tr) ∧
      stdout tr = plist.P_Plisthead.map (full_line X) ∧ stderr tr = [] := by
  obtain ⟨ho, he⟩ := rec_pkglist_silent X pkgquery [] (some plist) tr0 hpop
  unfold list_pkgs
  rw [setfmt_eq]
  simp only [hfull, if_false, hpop]
  refine ⟨_, rfl, ?_, ?_⟩
  · rw [stdout_append, ho, List.nil_append]
    induction plist.P_Plisthead with
    | nil => rfl
    | cons e es ih => simp [stdout, full_line, ih]
  · rw [stderr_append, he, List.nil_append]
    induction plist.P_Plisthead with
    | nil => rfl
    | cons e es ih => simp [stderr, ih]

theorem newlines_append (a b : String) : newlines (a ++ b) = newlines a + newlines b := by
  simp [newlines, List.count_append]

theorem newlines_eq_zero (a : String) (h : '\n' ∉ a.data) : newlines a = 0 := by
  simp [newlines, List.count_eq_zero_of_not_mem h]

/-- C17, amended: with the parsable flag set, for an identifier `f` that fits
the buffer (and holds no NUL) and a comment `m`, the formats chosen by `setfmt`
render a search or status-filtered record with status character `c` as the
text `f;c;m` followed by a newline, the status code being absent when `c` is
NUL (no status applies), and a full-listing record as `f;m` followed by a
newline; so are the calls `search_line`, `list_line` and `full_line` rendered.
A record whose identifier and comment hold no newline is exactly one line. -/
theorem parsable_rendering (X : Env) (f m : String)
    (hp : X.pflag ≠ 0) (hfit : f.length + 2 < X.BUFSIZ) (hnul : '\x00' ∉ f.data) :
    ∃ sfmt pfmt, setfmt X = Except.ok (sfmt, pfmt) ∧
      (∀ c : Char, ∃ o, snprintf X.BUFSIZ sfmt [Arg.str (some f), Arg.chr c] = Except.ok o ∧
        printf_text (pfmt, [Arg.str (some o), Arg.str (some m)]) =
          Except.ok (f ++ ";" ++ status_text c ++ ";" ++ m ++ "\n")) ∧
      printf_text (pfmt, [Arg.str (some f), Arg.str (some m)]) =
        Except.ok (f ++ ";" ++ m ++ "\n") ∧
      (∀ p : pkg_sort, p.full = f → p.comment = m →
        printf_text (search_line X p) =
          Except.ok (f ++ ";" ++ status_text p.flag ++ ";" ++ m ++ "\n")) ∧
      (∀ e : Pkglist, e.full = some f → e.comment = some m →
        printf_text (list_line X e) =
          Except.ok (f ++ ";" ++ status_text X.lslimit ++ ";" ++ m ++ "\n") ∧
        printf_text (full_line X e) = Except.ok (f ++ ";" ++ m ++ "\n")) ∧
      ('\n' ∉ f.data → '\n' ∉ m.data →
        (∀ c : Char, c ≠ '\n' →
          newlines (f ++ ";" ++ status_text c ++ ";" ++ m ++ "\n") = 1) ∧
        newlines (f ++ ";" ++ m ++ "\n") = 1) := by
  have hs : sfmt_of X = "%s;%c" := by simp [sfmt_of, hp]
  have hpf : pfmt_of X = "%s;%s\n" := by simp [pfmt_of, hp]
  have hout : ∀ c : Char, outpkg X f c = f ++ ";" ++ status_text c := by
    intro c
    by_cases hc : c = '\x00'
    · subst hc
      rw [outpkg_parsable_nul X f hp hfit hnul]
      apply String.ext
      simp [status_text]
    · rw [outpkg_parsable X f c hp hfit hnul hc]
      simp [status_text, hc]
  have hline : ∀ c : Char,
      printf_text ("%s;%s\n", [Arg.str (some (outpkg X f c)), Arg.str (some m)]) =
        Except.ok (f ++ ";" ++ status_text c ++ ";" ++ m ++ "\n") := by
    intro c
    rw [printf_text_parsable, hout c]
  refine ⟨sfmt_of X, pfmt_of X, setfmt_eq X, ?_, ?_, ?_, ?_, ?_⟩
  · intro c
    refine ⟨outpkg X f c, snprintf_sfmt X f c, ?_⟩
    rw [hpf]
    exact hline c
  · rw [hpf]
    exact printf_text_parsable f m
  · intro p hpfull hpc
    rw [search_line, hpf, hpfull, hpc]
    exact hline p.flag
  · intro e hef hec
    constructor
    · rw [list_line, hpf, hef, hec]
      exact hline X.lslimit
    · rw [full_line, hpf, hef, hec]
      exact printf_text_parsable f m
  · intro hnf hnm
    have h1 : newlines ";" = 0 := by decide
    have h2 : newlines "\n" = 1 := by decide
    constructor
    · intro c hc
      have h3 : newlines (status_text c) = 0 := by
        unfold status_text
        split_ifs
        · decide
        · apply newlines_eq_zero
          simp [String.singleton]
          exact fun h => hc h.symm
      simp [newlines_append, newlines_eq_zero f hnf, newlines_eq_zero m hnm, h1, h2, h3]
    · simp [newlines_append, newlines_eq_zero f hnf, newlines_eq_zero m hnm, h1, h2]

theorem parsable_rendering_witness :
    ∃ sfmt pfmt, setfmt sample_env = Except.ok (sfmt, pfmt) ∧
      (∃ o, snprintf sample_env.BUFSIZ sfmt [Arg.str (some "foo-1.0"), Arg.chr '<'] =
          Except.ok o ∧
        printf_text (pfmt, [Arg.str (some o), Arg.str (some "a foo tool")]) =
          Except.ok "foo-1.0;<;a foo tool\n") ∧
      (∃ o, snprintf sample_env.BUFSIZ sfmt [Arg.str (some "foo-1.0"), Arg.chr '\x00'] =
          Except.ok o ∧
        printf_text (pfmt, [Arg.str (some o), Arg.str (some "a foo tool")]) =
          Except.ok "foo-1.0;;a foo tool\n") ∧
      printf_text (pfmt, [Arg.str (some "foo-1.0"), Arg.str (some "a foo tool")]) =
        Except.ok "foo-1.0;a foo tool\n" ∧
      printf_text (list_line sample_env (sample_pkg "foo" "1.0" "a foo tool")) =
        Except.ok "foo-1.0;=;a foo tool\n" ∧
      newlines "foo-1.0;<;a foo tool\n" = 1 ∧ newlines "foo-1.0;a foo tool\n" = 1 := by
  obtain ⟨sfmt, pfmt, hset, hrec, hfull, _, hlist, hone⟩ :=
    parsable_rendering sample_env "foo-1.0" "a foo tool" (by decide) (by decide) (by decide)
  have h1 := hone (by decide) (by decide)
  exact ⟨sfmt, pfmt, hset, hrec '<', hrec '\x00', hfull,
    (hlist (sample_pkg "foo" "1.0" "a foo tool") rfl rfl).1, h1.1 '<' (by decide), h1.2⟩

/-- C17 as stated fails: with the parsable flag set, the search record of the
entry `foo-1.0` with status `=` and a comment that holds a newline is rendered
as the text of the claim, which is two lines, not one. -/
theorem parsable_record_two_lines :
    sample_env.pflag ≠ 0 ∧
    search_pkg sample_env [sample_pkg "foo" "1.0" "installed foo"]
      [sample_pkg "foo" "1.0" "a tool\nfor foo"] "foo" =
      Except.ok (EXIT_SUCCESS,
        [Event.pkg_is_installed (sample_pkg "foo" "1.0" "a tool\nfor foo"),
         Event.printf "%s;%s\n" [Arg.str (some "foo-1.0;="), Arg.str (some "a tool\nfor foo")],
         Event.printf sample_env.MSG_IS_INSTALLED_CODE []]) ∧
    printf_text ("%s;%s\n", [Arg.str (some "foo-1.0;="), Arg.str (some "a tool\nfor foo")]) =
      Except.ok "foo-1.0;=;a tool\nfor foo\n" ∧
    newlines "foo-1.0;=;a tool\nfor foo\n" = 2 ∧
    newlines "foo-1.0;=;a tool\nfor foo\n" ≠ 1 := by
  refine ⟨by decide, rfl, rfl, by decide, by decide⟩

end Pkgin
